import Mathlib

/-!
Sync-path configuration of devspace (`pkg/devspace/configure/sync.go`).

A shallow embedding of `AddSyncPath`, `RemoveSyncPath`, `parseSelectors` and
`areLabelMapsEqual`, followed by the properties proved about them.

Modelling conventions.

* The process-wide configuration returned by `configutil.GetConfig()` is an explicit
  `Config` value that is passed in and handed back in the `Outcome`.
* A Go pointer `*T` that the code tests against `nil` or dereferences is an `Option T`;
  dereferencing `none` is a runtime panic (`Outcome.panic`).  Elements of slices are
  taken to be non-nil, and so are the `*string` values held in a label map.
* A Go string is a Lean `String` (a sequence of code points; Go strings that are not
  valid UTF-8 are outside the model).  The separators `,` and `=` and the byte `/` are
  ASCII, so splitting and indexing by byte and by code point agree.
* The collaborators `os.Getwd`, `services.GetNameOfFirstHelmDeployment` and
  `configutil.SaveConfig` are not part of the file; their results are inputs (`Env`).
-/

namespace Devspace

/-! ## The parts of Go's `strings` and `unicode` packages that the file uses -/

/-- Go `unicode.IsSpace`: the code points with the Unicode White_Space property. -/
def isSpace (c : Char) : Bool :=
  let n := c.toNat
  (0x09 ≤ n && n ≤ 0x0D) || n == 0x20 || n == 0x85 || n == 0xA0 || n == 0x1680 ||
    (0x2000 ≤ n && n ≤ 0x200A) || n == 0x2028 || n == 0x2029 || n == 0x202F ||
    n == 0x205F || n == 0x3000

/-- The pieces of a character sequence between the occurrences of `sep`; there is always
at least one piece, and one more piece than there are separators. -/
def splitChars (sep : Char) : List Char → List (List Char)
  | [] => [[]]
  | c :: cs =>
    if c = sep then [] :: splitChars sep cs
    else
      match splitChars sep cs with
      | [] => [[c]]
      | w :: ws => (c :: w) :: ws

/-- Go `strings.Split(s, sep)` for a one-character separator. -/
def strings.Split (s : String) (sep : Char) : List String :=
  (splitChars sep s.data).map String.mk

/-- Go `strings.TrimSpace`: leading and trailing white space removed. -/
def strings.TrimSpace (s : String) : String :=
  String.mk ((((s.data.dropWhile isSpace).reverse).dropWhile isSpace).reverse)

/-- The rest of `s` after the leading `p`, when `s` starts with `p`. -/
def stripChars : List Char → List Char → Option (List Char)
  | [], s => some s
  | _ :: _, [] => none
  | a :: p, b :: s => if a = b then stripChars p s else none

/-- Go `strings.TrimPrefix(s, pre)`: `s` without the leading `pre`, or `s` itself when it
does not start with `pre`. -/
def strings.TrimPrefix (s pre : String) : String :=
  match stripChars pre.data s.data with
  | some r => String.mk r
  | none => s

/-! ## Label maps: Go `map[string]*string` -/

/-- The entries of a non-nil Go map: an association list in which no key occurs twice.
The order of the list carries no meaning. -/
structure Entries where
  list : List (String × String)
  nodupKeys : (list.map Prod.fst).Nodup
deriving DecidableEq

/-- Go `map[string]*string`; `none` is the nil map. -/
abbrev LabelMap := Option Entries

/-- Assignment `m[k] = v` on the association list: an existing key keeps its place and
gets the new value, a new key is added. -/
def assign (k v : String) : List (String × String) → List (String × String)
  | [] => [(k, v)]
  | e :: es => if e.1 = k then (k, v) :: es else e :: assign k v es

theorem map_fst_assign (k v : String) (l : List (String × String)) :
    (assign k v l).map Prod.fst
      = if k ∈ l.map Prod.fst then l.map Prod.fst else l.map Prod.fst ++ [k] := by
  induction l with
  | nil => simp [assign]
  | cons e es ih =>
    by_cases h : e.1 = k
    · simp [assign, h]
    · have h2 : ¬ k = e.1 := fun h3 => h h3.symm
      simp only [assign, h, if_false, List.map_cons, ih, List.mem_cons, h2, false_or]
      split <;> simp

theorem nodup_assign (k v : String) (l : List (String × String))
    (h : (l.map Prod.fst).Nodup) : ((assign k v l).map Prod.fst).Nodup := by
  rw [map_fst_assign]
  split
  · exact h
  · rename_i hk
    rw [List.nodup_append]
    refine ⟨h, List.nodup_singleton k, ?_⟩
    intro a ha hb
    rw [List.mem_singleton] at hb
    exact hk (hb ▸ ha)

/-- Go `make(map[string]*string)`: the empty, non-nil map. -/
def Entries.empty : Entries := ⟨[], List.nodup_nil⟩

/-- Go `m[k] = &v`. -/
def Entries.insert (m : Entries) (k v : String) : Entries :=
  ⟨assign k v m.list, nodup_assign k v m.list m.nodupKeys⟩

/-- Go `len(m)`; the nil map has length 0. -/
def LabelMap.len : LabelMap → Nat
  | none => 0
  | some m => m.list.length

/-- Go `v, ok := m[k]`; a lookup in the nil map finds nothing. -/
def LabelMap.get (m : LabelMap) (k : String) : Option String :=
  match m with
  | none => none
  | some e => e.list.lookup k

/-- The entries that `for k, v := range m` visits; none for the nil map. -/
def LabelMap.range : LabelMap → List (String × String)
  | none => []
  | some m => m.list

/-! ## The configuration document (`config/v1`) -/

/-- The fields of `v1.SyncConfig` that the file reads or writes; each is a pointer. -/
structure SyncConfig where
  LabelSelector : Option LabelMap
  ContainerPath : Option String
  LocalSubPath : Option String
  ExcludePaths : Option (List String)
  Namespace : Option String
  Service : Option String
deriving DecidableEq

/-- The fields of `v1.ServiceConfig` that the file uses. -/
structure ServiceConfig where
  Name : String
  LabelSelector : Option LabelMap
deriving DecidableEq

/-- The fields of `v1.DevSpaceConfig` that the file uses. -/
structure DevSpaceConfig where
  Sync : Option (List SyncConfig)
  Services : Option (List ServiceConfig)
deriving DecidableEq

/-- The configuration behind `configutil.GetConfig()`. -/
structure Config where
  DevSpace : Option DevSpaceConfig
deriving DecidableEq

/-- The sync paths of a configuration; an absent list has no entries. -/
def Config.syncPaths (c : Config) : List SyncConfig :=
  match c.DevSpace with
  | none => []
  | some d => d.Sync.getD []

/-- The errors the two operations return, named after the taxonomy of the specification. -/
inductive Err where
  /-- Line 30: "both service and label-selector specified ...". -/
  | conflictingTargetSpec
  /-- Line 43: "no service with name %v exists". -/
  | serviceNotFound (serviceName : String)
  /-- Lines 57 and 112: "Error parsing selectors: Wrong selector format: %s". -/
  | invalidSelector (selectorString : String)
  /-- Line 73: "Unable to determine current workdir: %s". -/
  | environmentError (msg : String)
  /-- Line 79: "ContainerPath (--container) must start with a slash ...". -/
  | invalidContainerPath
  /-- Lines 100 and 137: "Couldn't save config file: %s". -/
  | ioError (msg : String)
  /-- Line 116: "You have to specify at least one of the supported flags". -/
  | noCriteriaSpecified
deriving DecidableEq

/-- What a call does: it returns, leaving a configuration and an error value (`none` for
Go's `nil`), or it panics. -/
inductive Outcome where
  | returned (config : Config) (err : Option Err)
  | panic
deriving DecidableEq

/-- The results of the collaborators during one call. -/
structure Env where
  /-- The result of `os.Getwd()`: the working directory, or the error's text. -/
  workdir : Except String String
  /-- The result of `services.GetNameOfFirstHelmDeployment()`. -/
  firstHelmDeployment : String
  /-- The result of `configutil.SaveConfig()`: `none` for success, else the error's text. -/
  saveErr : Option String

/-! ## `parseSelectors` and `areLabelMapsEqual` (lines 144-178) -/

deriving instance DecidableEq for Except

/-- The loop of lines 153-161 over the comma-separated pieces: a piece that does not split
into exactly two parts around `=` ends the parse with the error, which carries the whole
`selectorString`; otherwise the trimmed key is assigned the trimmed value. -/
def parseLoop (selectorString : String) : List String → Entries → Except String Entries
  | [], selectorMap => .ok selectorMap
  | v :: rest, selectorMap =>
    match strings.Split v '=' with
    | [key, value] =>
      parseLoop selectorString rest
        (selectorMap.insert (strings.TrimSpace key) (strings.TrimSpace value))
    | _ => .error selectorString

/-- Lines 144-164.  The error value is the `selectorString` that the message
"Wrong selector format: %s" carries. -/
def parseSelectors (selectorString : String) : Except String LabelMap :=
  if selectorString = "" then .ok (some Entries.empty)
  else
    match parseLoop selectorString (strings.Split selectorString ',') Entries.empty with
    | .ok selectorMap => .ok (some selectorMap)
    | .error e => .error e

/-- Lines 166-178. -/
def areLabelMapsEqual (map1 map2 : LabelMap) : Bool :=
  if map1.len ≠ map2.len then false
  else
    map1.range.all fun entry =>
      match map2.get entry.1 with
      | none => false
      | some map2Value => decide (map2Value = entry.2)

/-! ## `AddSyncPath` (lines 15-104) -/

/-- Modelled from the spec: `getServiceWithName` is defined in another file of the
package.  It picks the service named `name` from the catalog, the first one when several
carry the name, and gives `none` (Go's `nil`) when no service has that name. -/
def getServiceWithName (services : List ServiceConfig) (name : String) :
    Option ServiceConfig :=
  services.find? fun service => service.Name = name

/-- How lines 33-52 end: with the two variables `labelSelectorMap` and `labelSelector`
set, with a returned error, or with a panic. -/
inductive Resolved where
  | vars (labelSelectorMap : LabelMap) (labelSelector : String)
  | fail (err : Err)
  | panic
deriving DecidableEq

/-- Line 48: `labelSelectorMap = *service.LabelSelector`. -/
def adoptSelector (service : ServiceConfig) : Resolved :=
  match service.LabelSelector with
  | none => .panic
  | some labelSelectorMap => .vars labelSelectorMap ""

/-- Lines 36-51, entered with an empty `labelSelector`: with a non-empty catalog the
selector of the named service, or of the first service, is adopted; otherwise
`labelSelector` becomes the release default. -/
def resolveFromCatalog (env : Env) (config : Config) (serviceName : String) : Resolved :=
  let fallback := Resolved.vars none ("release=" ++ env.firstHelmDeployment)
  match config.DevSpace with
  | none => fallback
  | some devSpace =>
    match devSpace.Services with
    | none => fallback
    | some [] => fallback
    | some (first :: others) =>
      if serviceName ≠ "" then
        match getServiceWithName (first :: others) serviceName with
        | none => .fail (.serviceNotFound serviceName)
        | some service => adoptSelector service
      else adoptSelector first

/-- Lines 33-52. -/
def resolveSelector (env : Env) (config : Config) (labelSelector serviceName : String) :
    Resolved :=
  if labelSelector = "" then resolveFromCatalog env config serviceName
  else .vars none labelSelector

/-- Lines 61-69. -/
def parseExcludedPaths (excludedPathsString : String) : List String :=
  if excludedPathsString ≠ "" then
    (strings.Split excludedPathsString ',').map strings.TrimSpace
  else []

/-- Lines 18-24: an absent `DevSpace` section and an absent sync list are created. -/
def initSync (config : Config) : Config :=
  let devSpace : DevSpaceConfig := config.DevSpace.getD { Sync := none, Services := none }
  { DevSpace := some { devSpace with Sync := some (devSpace.Sync.getD []) } }

/-- Line 96: `config.DevSpace.Sync = &syncConfig`. -/
def setSync (config : Config) (syncConfig : List SyncConfig) : Config :=
  { DevSpace := config.DevSpace.map fun devSpace => { devSpace with Sync := some syncConfig } }

/-- The entry built in lines 87-94; every field is the address of a value. -/
def newSyncConfig (localPath containerPath nspace serviceName : String)
    (excludedPaths : List String) (labelSelectorMap : LabelMap) : SyncConfig :=
  { LabelSelector := some labelSelectorMap
    ContainerPath := some containerPath
    LocalSubPath := some localPath
    ExcludePaths := some excludedPaths
    Namespace := some nspace
    Service := some serviceName }

/-- Lines 61-103, entered with the resolved `labelSelectorMap`.  Indexing the empty
`containerPath` at 0 (line 78) is a panic. -/
def storeSyncPath (env : Env) (config : Config)
    (localPath containerPath nspace excludedPathsString serviceName : String)
    (labelSelectorMap : LabelMap) : Outcome :=
  let excludedPaths := parseExcludedPaths excludedPathsString
  match env.workdir with
  | .error msg => .returned config (some (.environmentError msg))
  | .ok workdir =>
    let localPath := strings.TrimPrefix localPath workdir
    match containerPath.data with
    | [] => .panic
    | first :: _ =>
      if first ≠ '/' then .returned config (some .invalidContainerPath)
      else
        let labelSelectorMap := if serviceName ≠ "" then none else labelSelectorMap
        let syncConfig := config.syncPaths ++
          [newSyncConfig localPath containerPath nspace serviceName excludedPaths
            labelSelectorMap]
        let config := setSync config syncConfig
        match env.saveErr with
        | some msg => .returned config (some (.ioError msg))
        | none => .returned config none

/-- Lines 15-104.  The parameter `nspace` is the source's `namespace`. -/
def AddSyncPath (env : Env) (config : Config)
    (localPath containerPath nspace labelSelector excludedPathsString serviceName : String) :
    Outcome :=
  let config := initSync config
  if labelSelector ≠ "" ∧ serviceName ≠ "" then
    .returned config (some .conflictingTargetSpec)
  else
    match resolveSelector env config labelSelector serviceName with
    | .panic => .panic
    | .fail err => .returned config (some err)
    | .vars (some selectorMap) _ =>
      storeSyncPath env config localPath containerPath nspace excludedPathsString serviceName
        (some selectorMap)
    | .vars none labelSelector =>
      match parseSelectors labelSelector with
      | .error e => .returned config (some (.invalidSelector e))
      | .ok labelSelectorMap =>
        storeSyncPath env config localPath containerPath nspace excludedPathsString
          serviceName labelSelectorMap

/-! ## `RemoveSyncPath` (lines 107-142) -/

/-- The condition of lines 123-126, evaluated left to right with Go's short-circuit `||`;
`none` when a nil field is dereferenced. -/
def matchesQuery (removeAll : Bool) (localPath containerPath : String)
    (labelSelectorMap : LabelMap) (v : SyncConfig) : Option Bool :=
  if removeAll then some true
  else
    match v.LocalSubPath with
    | none => none
    | some vLocalSubPath =>
      if localPath = vLocalSubPath then some true
      else
        match v.ContainerPath with
        | none => none
        | some vContainerPath =>
          if containerPath = vContainerPath then some true
          else
            match v.LabelSelector with
            | none => none
            | some vLabelSelector => some (areLabelMapsEqual labelSelectorMap vLabelSelector)

/-- The loop of lines 122-131; the second list is `newSyncPaths`.  `none` is a panic. -/
def removeLoop (removeAll : Bool) (localPath containerPath : String)
    (labelSelectorMap : LabelMap) : List SyncConfig → List SyncConfig → Option (List SyncConfig)
  | [], newSyncPaths => some newSyncPaths
  | v :: rest, newSyncPaths =>
    match matchesQuery removeAll localPath containerPath labelSelectorMap v with
    | none => none
    | some true => removeLoop removeAll localPath containerPath labelSelectorMap rest newSyncPaths
    | some false =>
      removeLoop removeAll localPath containerPath labelSelectorMap rest (newSyncPaths ++ [v])

/-- Lines 107-142. -/
def RemoveSyncPath (env : Env) (config : Config) (removeAll : Bool)
    (localPath containerPath labelSelector : String) : Outcome :=
  match parseSelectors labelSelector with
  | .error e => .returned config (some (.invalidSelector e))
  | .ok labelSelectorMap =>
    if labelSelectorMap.len = 0 ∧ removeAll = false ∧ localPath = "" ∧ containerPath = "" then
      .returned config (some .noCriteriaSpecified)
    else
      match config.DevSpace with
      | none => .panic
      | some devSpace =>
        match devSpace.Sync with
        | none => .returned config none
        | some [] => .returned config none
        | some (v :: rest) =>
          match removeLoop removeAll localPath containerPath labelSelectorMap (v :: rest) [] with
          | none => .panic
          | some newSyncPaths =>
            let config := setSync config newSyncPaths
            match env.saveErr with
            | some msg => .returned config (some (.ioError msg))
            | none => .returned config none

/-! ## Calls -/

/-- One call of either operation with its arguments. -/
inductive Call where
  | add (localPath containerPath nspace labelSelector excludedPathsString serviceName : String)
  | remove (removeAll : Bool) (localPath containerPath labelSelector : String)

/-- The outcome of a call on a configuration. -/
def Call.run (env : Env) (config : Config) : Call → Outcome
  | .add localPath containerPath nspace labelSelector excludedPathsString serviceName =>
    AddSyncPath env config localPath containerPath nspace labelSelector excludedPathsString
      serviceName
  | .remove removeAll localPath containerPath labelSelector =>
    RemoveSyncPath env config removeAll localPath containerPath labelSelector

/-! ## The removal criterion in the words of the specification -/

/-- The criterion of the specification's Remove, step 3: `removeAll` is true, or the
mapping's local path equals the query's, or its container path equals the query's, or the
query selector and the stored selector are equal under `areLabelMapsEqual`.  A field that
is not set equals no query value. -/
def removalCriterion (removeAll : Bool) (localPath containerPath : String)
    (query : LabelMap) (v : SyncConfig) : Bool :=
  removeAll || decide (v.LocalSubPath = some localPath) ||
    decide (v.ContainerPath = some containerPath) ||
    (match v.LabelSelector with
     | some stored => areLabelMapsEqual query stored
     | none => false)

/-- The three pointers that the loop of `RemoveSyncPath` may dereference are all set. -/
def SyncConfig.fieldsSet (v : SyncConfig) : Bool :=
  v.LocalSubPath.isSome && v.ContainerPath.isSome && v.LabelSelector.isSome

/-- The stored selector has no entries: the pointer is set and the map is nil or empty. -/
def SyncConfig.hasEmptySelector (v : SyncConfig) : Bool :=
  match v.LabelSelector with
  | some stored => stored.len == 0
  | none => false

/-! ## Sample data for the concrete instances -/

/-- The map obtained from `make(map[string]*string)` by assigning the pairs in turn. -/
def labels (pairs : List (String × String)) : LabelMap :=
  some (pairs.foldl (fun m e => m.insert e.1 e.2) Entries.empty)

/-- A sync path with the given paths and selector field, without exclusions, namespace or
service, as `AddSyncPath` lays it out. -/
def syncPath (localPath containerPath : String) (selector : Option LabelMap) : SyncConfig :=
  { LabelSelector := selector
    ContainerPath := some containerPath
    LocalSubPath := some localPath
    ExcludePaths := some []
    Namespace := some ""
    Service := some "" }

/-- A configuration with the given sync paths and service catalog. -/
def configOf (paths : List SyncConfig) (services : List ServiceConfig) : Config :=
  { DevSpace := some { Sync := some paths, Services := some services } }

/-- The catalog of the specification's example: the service `svc` with selector `tier=x`. -/
def svcCatalog : List ServiceConfig :=
  [{ Name := "svc", LabelSelector := some (labels [("tier", "x")]) }]

/-- A catalog with the one service `web`, whose selector is `tier=x`. -/
def webCatalog : List ServiceConfig :=
  [{ Name := "web", LabelSelector := some (labels [("tier", "x")]) }]

/-- A catalog with the service `web` first and then the service `svc`, whose selector
pointer is not set. -/
def webSvcCatalog : List ServiceConfig :=
  [{ Name := "web", LabelSelector := some (labels [("tier", "x")]) },
    { Name := "svc", LabelSelector := none }]

/-- Collaborators that succeed: the working directory is `/work`, the first release `app`. -/
def okEnv : Env := { workdir := .ok "/work", firstHelmDeployment := "app", saveErr := none }

/-- Collaborators of which `os.Getwd` fails. -/
def noWorkdirEnv : Env :=
  { workdir := .error "getwd: no such file or directory"
    firstHelmDeployment := "app"
    saveErr := none }

/-- Collaborators of which the save fails. -/
def failingSaveEnv : Env :=
  { workdir := .ok "/work", firstHelmDeployment := "app", saveErr := some "disk full" }

/-! ## Reading an outcome -/

/-- The error the call returned, if it returned one. -/
def Outcome.err? : Outcome → Option Err
  | .returned _ err => err
  | .panic => none

/-- The sync paths the call left behind; `none` when it panicked. -/
def Outcome.syncPaths? : Outcome → Option (List SyncConfig)
  | .returned config _ => some config.syncPaths
  | .panic => none

/-! ## The pairs an expression denotes, in the words of the specification -/

/-- The trimmed key and the trimmed value of a token that splits into exactly two parts
around `=`; a token of any other shape denotes no pair. -/
def tokenPair (token : String) : Option (String × String) :=
  match strings.Split token '=' with
  | [key, value] => some (strings.TrimSpace key, strings.TrimSpace value)
  | _ => none

/-- The pairs that the comma-separated tokens of an expression denote, in their order. -/
def tokenPairs (selectorString : String) : List (String × String) :=
  (strings.Split selectorString ',').filterMap tokenPair

/-- The value of the last pair of the list whose key is `k`. -/
def lastValue (k : String) : List (String × String) → Option String
  | [] => none
  | p :: rest =>
    match lastValue k rest with
    | some v => some v
    | none => if p.1 = k then some p.2 else none

/-! ## The service catalog and sequences of calls -/

/-- The services of a configuration; an absent catalog has no entries. -/
def Config.catalog (c : Config) : List ServiceConfig :=
  match c.DevSpace with
  | none => []
  | some d => d.Services.getD []

/-- The configuration after the calls are made in turn, each with the results of its own
collaborators, when every one of them succeeds; `none` as soon as a call returns an error
or panics. -/
def runCalls (config : Config) : List (Env × Call) → Option Config
  | [] => some config
  | (env, call) :: rest =>
    match call.run env config with
    | .returned config' none => runCalls config' rest
    | _ => none

/-- The sync path names a service: the field is set and is not the empty string. -/
def SyncConfig.hasService (v : SyncConfig) : Bool :=
  match v.Service with
  | some serviceName => serviceName != ""
  | none => false

/-- The sync path stores a selector with at least one entry. -/
def SyncConfig.hasSelector (v : SyncConfig) : Bool :=
  match v.LabelSelector with
  | some stored => stored.len != 0
  | none => false

/-- The two invariants of the data model: the container path is set and begins with `/`,
and the sync path does not both name a service and store a non-empty selector. -/
def SyncConfig.wellFormed (v : SyncConfig) : Bool :=
  (match v.ContainerPath with
    | some containerPath => containerPath.data.head? == some '/'
    | none => false) &&
  !(v.hasService && v.hasSelector)

/-- The stored selector is the nil pointer, the nil map or a map without entries. -/
def SyncConfig.selectorEmptyOrAbsent (v : SyncConfig) : Bool :=
  match v.LabelSelector with
  | some stored => stored.len == 0
  | none => true

/-! ## Label maps: lookups and equality -/

theorem lookup_eq_some_iff (l : List (String × String)) (h : (l.map Prod.fst).Nodup)
    (k v : String) : l.lookup k = some v ↔ (k, v) ∈ l := by
  induction l with
  | nil => simp
  | cons e es ih =>
    obtain ⟨k', v'⟩ := e
    rw [List.map_cons, List.nodup_cons] at h
    by_cases hk : k = k'
    · subst hk
      have hnot : (k, v) ∉ es := fun hm => h.1 (List.mem_map.2 ⟨(k, v), hm, rfl⟩)
      simp [List.lookup_cons, hnot, eq_comm]
    · have hbeq : (k == k') = false := by simpa using hk
      simp [List.lookup_cons, hbeq, hk, ih h.2]

theorem nodup_of_nodupKeys (l : List (String × String)) (h : (l.map Prod.fst).Nodup) :
    l.Nodup :=
  List.Nodup.of_map Prod.fst h

theorem LabelMap.range_nodupKeys (m : LabelMap) : (m.range.map Prod.fst).Nodup := by
  cases m with
  | none => simp [LabelMap.range]
  | some e => exact e.nodupKeys

theorem LabelMap.get_eq_lookup (m : LabelMap) (k : String) : m.get k = m.range.lookup k := by
  cases m <;> simp [LabelMap.get, LabelMap.range]

theorem LabelMap.len_eq_length (m : LabelMap) : m.len = m.range.length := by
  cases m <;> simp [LabelMap.len, LabelMap.range]

theorem areLabelMapsEqual_eq_true (map1 map2 : LabelMap) :
    areLabelMapsEqual map1 map2 = true
      ↔ map1.len = map2.len ∧ ∀ e ∈ map1.range, map2.get e.1 = some e.2 := by
  unfold areLabelMapsEqual
  by_cases hlen : map1.len = map2.len
  · simp only [hlen, ne_eq, not_true_eq_false, if_false, List.all_eq_true, true_and]
    constructor
    · intro h e he
      have := h e he
      cases hg : map2.get e.1 with
      | none => simp [hg] at this
      | some w => simpa [hg] using this
    · intro h e he
      simp [h e he]
  · simp [hlen]

theorem lookups_agree_of_contained (la lb : List (String × String))
    (ha : (la.map Prod.fst).Nodup) (hb : (lb.map Prod.fst).Nodup)
    (hlen : la.length = lb.length) (hsub : ∀ e ∈ la, lb.lookup e.1 = some e.2) (k : String) :
    la.lookup k = lb.lookup k := by
  have hsubset : la ⊆ lb := by
    intro e he
    exact (lookup_eq_some_iff lb hb e.1 e.2).1 (hsub e he)
  have hperm : la.Perm lb :=
    (List.subperm_of_subset (nodup_of_nodupKeys la ha) hsubset).perm_of_length_le (le_of_eq hlen.symm)
  apply Option.ext
  intro v
  rw [Option.mem_def, Option.mem_def, lookup_eq_some_iff la ha, lookup_eq_some_iff lb hb]
  exact hperm.mem_iff

theorem contained_of_lookups_agree (la lb : List (String × String))
    (ha : (la.map Prod.fst).Nodup) (hb : (lb.map Prod.fst).Nodup)
    (h : ∀ k, la.lookup k = lb.lookup k) :
    la.length = lb.length ∧ ∀ e ∈ la, lb.lookup e.1 = some e.2 := by
  have hmem : ∀ e, e ∈ la ↔ e ∈ lb := by
    intro e
    rw [← lookup_eq_some_iff la ha e.1 e.2, ← lookup_eq_some_iff lb hb e.1 e.2, h]
  constructor
  · exact ((List.perm_ext_iff_of_nodup (nodup_of_nodupKeys la ha)
      (nodup_of_nodupKeys lb hb)).2 hmem).length_eq
  · intro e he
    rw [← h]
    exact (lookup_eq_some_iff la ha e.1 e.2).2 he

theorem areLabelMapsEqual_iff_get (map1 map2 : LabelMap) :
    areLabelMapsEqual map1 map2 = true ↔ ∀ k, map1.get k = map2.get k := by
  rw [areLabelMapsEqual_eq_true]
  simp only [LabelMap.get_eq_lookup, LabelMap.len_eq_length]
  constructor
  · rintro ⟨hlen, hsub⟩ k
    exact lookups_agree_of_contained _ _ map1.range_nodupKeys map2.range_nodupKeys hlen hsub k
  · intro h
    exact contained_of_lookups_agree _ _ map1.range_nodupKeys map2.range_nodupKeys h

theorem areLabelMapsEqual_self (m : LabelMap) : areLabelMapsEqual m m = true :=
  (areLabelMapsEqual_iff_get m m).2 fun _ => rfl

theorem areLabelMapsEqual_comm (map1 map2 : LabelMap) :
    areLabelMapsEqual map1 map2 = areLabelMapsEqual map2 map1 := by
  rw [Bool.eq_iff_iff, areLabelMapsEqual_iff_get, areLabelMapsEqual_iff_get]
  exact ⟨fun h k => (h k).symm, fun h k => (h k).symm⟩

/-! ## The loop of `RemoveSyncPath` is a filter -/

theorem matchesQuery_eq_some (removeAll : Bool) (localPath containerPath : String)
    (query : LabelMap) (v : SyncConfig) (b : Bool)
    (h : matchesQuery removeAll localPath containerPath query v = some b) :
    b = removalCriterion removeAll localPath containerPath query v := by
  obtain ⟨sel, cpath, lpath, ex, ns, svc⟩ := v
  unfold matchesQuery at h
  unfold removalCriterion
  cases removeAll
  · cases lpath with
    | none => simp at h
    | some l =>
      by_cases h1 : localPath = l
      · simp_all
      · cases cpath with
        | none => simp [h1] at h
        | some p =>
          by_cases h2 : containerPath = p
          · simp_all
          · cases sel with
            | none => simp [h1, h2] at h
            | some stored =>
              have h1' : ¬ l = localPath := fun e => h1 e.symm
              have h2' : ¬ p = containerPath := fun e => h2 e.symm
              simp [h1, h2] at h
              simp [h1', h2', h]
  · simp_all

theorem matchesQuery_isSome (removeAll : Bool) (localPath containerPath : String)
    (query : LabelMap) (v : SyncConfig) (hv : v.fieldsSet = true) :
    ∃ b, matchesQuery removeAll localPath containerPath query v = some b := by
  obtain ⟨sel, cpath, lpath, ex, ns, svc⟩ := v
  simp only [SyncConfig.fieldsSet, Bool.and_eq_true, Option.isSome_iff_exists] at hv
  obtain ⟨⟨⟨l, rfl⟩, ⟨p, rfl⟩⟩, ⟨stored, rfl⟩⟩ := hv
  unfold matchesQuery
  cases removeAll
  · by_cases h1 : localPath = l
    · simp [h1]
    · by_cases h2 : containerPath = p
      · simp [h1, h2]
      · simp [h1, h2]
  · simp

theorem removeLoop_eq_some (removeAll : Bool) (localPath containerPath : String)
    (query : LabelMap) (l acc r : List SyncConfig)
    (h : removeLoop removeAll localPath containerPath query l acc = some r) :
    r = acc ++ l.filter fun v => !removalCriterion removeAll localPath containerPath query v := by
  induction l generalizing acc with
  | nil =>
    simp only [removeLoop, Option.some.injEq] at h
    simp [h]
  | cons v rest ih =>
    unfold removeLoop at h
    cases hm : matchesQuery removeAll localPath containerPath query v with
    | none => simp [hm] at h
    | some b =>
      have hb := matchesQuery_eq_some _ _ _ _ _ _ hm
      cases b with
      | true =>
        simp only [hm] at h
        rw [ih acc h, List.filter_cons, ← hb]
        simp
      | false =>
        simp only [hm] at h
        rw [ih _ h, List.filter_cons, ← hb]
        simp

theorem removeLoop_of_fieldsSet (removeAll : Bool) (localPath containerPath : String)
    (query : LabelMap) (l acc : List SyncConfig) (hl : ∀ v ∈ l, v.fieldsSet = true) :
    removeLoop removeAll localPath containerPath query l acc
      = some (acc ++ l.filter fun v =>
          !removalCriterion removeAll localPath containerPath query v) := by
  induction l generalizing acc with
  | nil => simp [removeLoop]
  | cons v rest ih =>
    obtain ⟨b, hm⟩ := matchesQuery_isSome removeAll localPath containerPath query v
      (hl v (List.mem_cons_self v rest))
    have hb := matchesQuery_eq_some _ _ _ _ _ _ hm
    have hrest : ∀ w ∈ rest, w.fieldsSet = true := fun w hw => hl w (List.mem_cons_of_mem v hw)
    unfold removeLoop
    cases b with
    | true =>
      simp only [hm]
      rw [ih acc hrest, List.filter_cons, ← hb]
      simp
    | false =>
      simp only [hm]
      rw [ih _ hrest, List.filter_cons, ← hb]
      simp

theorem removeLoop_removeAll (localPath containerPath : String) (query : LabelMap)
    (l acc : List SyncConfig) :
    removeLoop true localPath containerPath query l acc = some acc := by
  induction l generalizing acc with
  | nil => simp [removeLoop]
  | cons v rest ih =>
    unfold removeLoop
    simp [matchesQuery, ih]

/-! ## `parseSelectors`: the size of the result -/

theorem length_le_length_assign (k v : String) (l : List (String × String)) :
    l.length ≤ (assign k v l).length := by
  induction l with
  | nil => simp [assign]
  | cons e es ih =>
    unfold assign
    split
    · simp
    · simpa using ih

theorem length_assign_pos (k v : String) (l : List (String × String)) :
    0 < (assign k v l).length := by
  cases l with
  | nil => simp [assign]
  | cons e es =>
    unfold assign
    split <;> simp

theorem parseLoop_length_le (selectorString : String) (tokens : List String) (m r : Entries)
    (h : parseLoop selectorString tokens m = .ok r) : m.list.length ≤ r.list.length := by
  induction tokens generalizing m with
  | nil =>
    simp only [parseLoop, Except.ok.injEq] at h
    rw [h]
  | cons t rest ih =>
    unfold parseLoop at h
    split at h
    · exact le_trans (length_le_length_assign _ _ _) (ih _ h)
    · simp at h

theorem parseLoop_cons_pos (selectorString t : String) (rest : List String) (m r : Entries)
    (h : parseLoop selectorString (t :: rest) m = .ok r) : 0 < r.list.length := by
  unfold parseLoop at h
  split at h
  · exact lt_of_lt_of_le (length_assign_pos _ _ _) (parseLoop_length_le _ _ _ _ h)
  · simp at h

theorem splitChars_ne_nil (sep : Char) (cs : List Char) : splitChars sep cs ≠ [] := by
  cases cs with
  | nil => simp [splitChars]
  | cons c cs =>
    unfold splitChars
    split
    · simp
    · split <;> simp

theorem Split_ne_nil (s : String) (sep : Char) : strings.Split s sep ≠ [] := by
  simp [strings.Split, splitChars_ne_nil]

theorem parseSelectors_empty : parseSelectors "" = .ok (some Entries.empty) := by
  simp [parseSelectors]

theorem parseSelectors_len_pos (selectorString : String) (query : LabelMap)
    (hne : selectorString ≠ "") (h : parseSelectors selectorString = .ok query) :
    0 < query.len := by
  unfold parseSelectors at h
  rw [if_neg hne] at h
  cases hs : strings.Split selectorString ',' with
  | nil => exact absurd hs (Split_ne_nil _ _)
  | cons t rest =>
    rw [hs] at h
    cases hl : parseLoop selectorString (t :: rest) Entries.empty with
    | error e => simp [hl] at h
    | ok r =>
      simp only [hl, Except.ok.injEq] at h
      subst h
      exact parseLoop_cons_pos _ _ _ _ _ hl

theorem parseSelectors_len_eq_zero_iff (selectorString : String) (query : LabelMap)
    (h : parseSelectors selectorString = .ok query) : query.len = 0 ↔ selectorString = "" := by
  constructor
  · intro h0
    by_contra hne
    have := parseSelectors_len_pos selectorString query hne h
    omega
  · intro he
    subst he
    rw [parseSelectors_empty] at h
    simp only [Except.ok.injEq] at h
    subst h
    rfl

theorem areLabelMapsEqual_empty_left (stored : LabelMap) :
    areLabelMapsEqual (some Entries.empty) stored = (stored.len == 0) := by
  have hlen : LabelMap.len (some Entries.empty) = 0 := rfl
  have hrange : LabelMap.range (some Entries.empty) = [] := rfl
  unfold areLabelMapsEqual
  rw [hlen, hrange]
  by_cases h : stored.len = 0
  · simp [h]
  · have h2 : ¬ 0 = stored.len := fun e => h e.symm
    simp [h, h2]

/-! ## Configurations -/

theorem syncPaths_setSync (config : Config) (devSpace : DevSpaceConfig)
    (h : config.DevSpace = some devSpace) (l : List SyncConfig) :
    (setSync config l).syncPaths = l := by
  simp [setSync, Config.syncPaths, h]

theorem syncPaths_of_sync (config : Config) (devSpace : DevSpaceConfig)
    (h : config.DevSpace = some devSpace) (l : List SyncConfig) (hl : devSpace.Sync = some l) :
    config.syncPaths = l := by
  simp [Config.syncPaths, h, hl]

theorem syncPaths_initSync (config : Config) : (initSync config).syncPaths = config.syncPaths := by
  obtain ⟨d⟩ := config
  cases d with
  | none => simp [initSync, Config.syncPaths]
  | some d => cases hs : d.Sync <;> simp [initSync, Config.syncPaths, hs]

/-! ## The successful runs of `AddSyncPath` -/

theorem storeSyncPath_returned_none (env : Env) (config config' : Config)
    (localPath containerPath nspace excludedPathsString serviceName : String)
    (labelSelectorMap : LabelMap)
    (h : storeSyncPath env config localPath containerPath nspace excludedPathsString
      serviceName labelSelectorMap = .returned config' none) :
    ∃ workdir, env.workdir = .ok workdir ∧ env.saveErr = none ∧
      (∃ rest, containerPath.data = '/' :: rest) ∧
      config' = setSync config (config.syncPaths ++
        [newSyncConfig (strings.TrimPrefix localPath workdir) containerPath nspace serviceName
          (parseExcludedPaths excludedPathsString)
          (if serviceName ≠ "" then none else labelSelectorMap)]) := by
  unfold storeSyncPath at h
  cases hw : env.workdir with
  | error msg => simp [hw] at h
  | ok workdir =>
    refine ⟨workdir, rfl, ?_⟩
    simp only [hw] at h
    cases hc : containerPath.data with
    | nil => simp [hc] at h
    | cons first rest =>
      simp only [hc] at h
      by_cases hf : first = '/'
      · subst hf
        simp only [ne_eq, not_true_eq_false, if_false] at h
        cases hsave : env.saveErr with
        | some msg => simp [hsave] at h
        | none =>
          simp only [hsave, Outcome.returned.injEq, and_true] at h
          exact ⟨rfl, ⟨rest, rfl⟩, h.symm⟩
      · simp [hf] at h

theorem AddSyncPath_returned_none (env : Env) (config config' : Config)
    (localPath containerPath nspace labelSelector excludedPathsString serviceName : String)
    (h : AddSyncPath env config localPath containerPath nspace labelSelector
      excludedPathsString serviceName = .returned config' none) :
    ∃ workdir resolved, env.workdir = .ok workdir ∧ env.saveErr = none ∧
      (∃ rest, containerPath.data = '/' :: rest) ∧
      (labelSelector ≠ "" → serviceName = "" ∧ parseSelectors labelSelector = .ok resolved) ∧
      config' = setSync (initSync config) (config.syncPaths ++
        [newSyncConfig (strings.TrimPrefix localPath workdir) containerPath nspace serviceName
          (parseExcludedPaths excludedPathsString)
          (if serviceName ≠ "" then none else resolved)]) := by
  unfold AddSyncPath at h
  simp only at h
  split at h
  · simp at h
  · rename_i hconf
    by_cases he : labelSelector = ""
    · split at h
      · simp at h
      · simp at h
      · obtain ⟨workdir, hw, hs, hc, hcfg⟩ := storeSyncPath_returned_none _ _ _ _ _ _ _ _ _ h
        rw [syncPaths_initSync] at hcfg
        exact ⟨workdir, _, hw, hs, hc, fun hne => absurd he hne, hcfg⟩
      · split at h
        · simp at h
        · obtain ⟨workdir, hw, hs, hc, hcfg⟩ := storeSyncPath_returned_none _ _ _ _ _ _ _ _ _ h
          rw [syncPaths_initSync] at hcfg
          exact ⟨workdir, _, hw, hs, hc, fun hne => absurd he hne, hcfg⟩
    · have hsvc : serviceName = "" := by
        by_contra hne
        exact hconf ⟨he, hne⟩
      have hres : resolveSelector env (initSync config) labelSelector serviceName
          = .vars none labelSelector := by
        simp [resolveSelector, he]
      rw [hres] at h
      simp only at h
      cases hp : parseSelectors labelSelector with
      | error e => simp [hp] at h
      | ok query =>
        simp only [hp] at h
        obtain ⟨workdir, hw, hs, hc, hcfg⟩ := storeSyncPath_returned_none _ _ _ _ _ _ _ _ _ h
        rw [syncPaths_initSync] at hcfg
        exact ⟨workdir, query, hw, hs, hc, fun _ => ⟨hsvc, rfl⟩, hcfg⟩

/-! ## Claims about `RemoveSyncPath` -/

/-- C1: when `RemoveSyncPath` succeeds, the selector expression parsed to some `query`
and the sync paths it leaves are exactly the sync paths it found, in their order, without
those that meet the removal criterion (`removeAll`, equal local path, equal container
path, or a stored selector equal to `query`); the survivors are entries of the old list,
unchanged. -/
theorem RemoveSyncPath_filters (env : Env) (config config' : Config) (removeAll : Bool)
    (localPath containerPath labelSelector : String)
    (h : RemoveSyncPath env config removeAll localPath containerPath labelSelector
      = .returned config' none) :
    ∃ query, parseSelectors labelSelector = .ok query ∧
      config'.syncPaths = config.syncPaths.filter
        (fun v => !removalCriterion removeAll localPath containerPath query v) ∧
      List.Sublist config'.syncPaths config.syncPaths := by
  unfold RemoveSyncPath at h
  cases hp : parseSelectors labelSelector with
  | error e => simp [hp] at h
  | ok query =>
    refine ⟨query, rfl, ?_⟩
    have key : config'.syncPaths = config.syncPaths.filter
        (fun v => !removalCriterion removeAll localPath containerPath query v) := by
      simp only [hp] at h
      split at h
      · simp at h
      · cases hd : config.DevSpace with
        | none => simp [hd] at h
        | some devSpace =>
          cases hs : devSpace.Sync with
          | none =>
            simp only [hd, hs, Outcome.returned.injEq, and_true] at h
            subst h
            simp [Config.syncPaths, hd, hs]
          | some l =>
            cases l with
            | nil =>
              simp only [hd, hs, Outcome.returned.injEq, and_true] at h
              subst h
              simp [Config.syncPaths, hd, hs]
            | cons v rest =>
              simp only [hd, hs] at h
              cases hr : removeLoop removeAll localPath containerPath query (v :: rest) [] with
              | none => simp [hr] at h
              | some r =>
                simp only [hr] at h
                cases hsave : env.saveErr with
                | some msg => simp [hsave] at h
                | none =>
                  simp only [hsave, Outcome.returned.injEq, and_true] at h
                  subst h
                  rw [syncPaths_setSync config devSpace hd, syncPaths_of_sync config devSpace hd _ hs,
                    removeLoop_eq_some _ _ _ _ _ _ _ hr]
                  simp
    rw [key]
    exact ⟨rfl, List.filter_sublist _⟩

theorem RemoveSyncPath_of_fieldsSet (env : Env) (config : Config) (devSpace : DevSpaceConfig)
    (removeAll : Bool) (localPath containerPath labelSelector : String) (query : LabelMap)
    (hd : config.DevSpace = some devSpace) (hp : parseSelectors labelSelector = .ok query)
    (hg : ¬ (query.len = 0 ∧ removeAll = false ∧ localPath = "" ∧ containerPath = ""))
    (hset : ∀ v ∈ config.syncPaths, v.fieldsSet = true) :
    (RemoveSyncPath env config removeAll localPath containerPath labelSelector).syncPaths?
        = some (config.syncPaths.filter
            fun v => !removalCriterion removeAll localPath containerPath query v) ∧
      (env.saveErr = none →
        (RemoveSyncPath env config removeAll localPath containerPath labelSelector).err?
          = none) := by
  unfold RemoveSyncPath
  simp only [hp, hg, if_false, hd]
  cases hs : devSpace.Sync with
  | none => simp [Outcome.syncPaths?, Outcome.err?, Config.syncPaths, hd, hs]
  | some l =>
    cases l with
    | nil => simp [Outcome.syncPaths?, Outcome.err?, Config.syncPaths, hd, hs]
    | cons v rest =>
      have hl : config.syncPaths = v :: rest := syncPaths_of_sync config devSpace hd _ hs
      rw [hl] at hset
      simp only [removeLoop_of_fieldsSet removeAll localPath containerPath query (v :: rest) []
        hset, List.nil_append, hl]
      cases hsave : env.saveErr with
      | some msg => simp [Outcome.syncPaths?, syncPaths_setSync config devSpace hd]
      | none => simp [Outcome.syncPaths?, Outcome.err?, syncPaths_setSync config devSpace hd]

theorem removalCriterion_pathOnly (localPath : String) (v : SyncConfig) :
    removalCriterion false localPath "" (some Entries.empty) v
      = (decide (v.LocalSubPath = some localPath) || decide (v.ContainerPath = some "") ||
          v.hasEmptySelector) := by
  unfold removalCriterion SyncConfig.hasEmptySelector
  cases v.LabelSelector with
  | none => simp
  | some stored => simp [areLabelMapsEqual_empty_left]

/-- C1, a concrete instance: removing by the selector `tier=db` from three sync paths. -/
theorem RemoveSyncPath_filters_witness :
    RemoveSyncPath okEnv
        (configOf [syncPath "/a" "/x" (some (labels [("tier", "db")])),
          syncPath "/b" "/y" (some (labels [("tier", "web")])),
          syncPath "/c" "/z" (some (labels [("tier", "db")]))] [])
        false "" "" "tier=db"
      = .returned (configOf [syncPath "/b" "/y" (some (labels [("tier", "web")]))] []) none ∧
    ∃ query, parseSelectors "tier=db" = .ok query ∧
      (configOf [syncPath "/b" "/y" (some (labels [("tier", "web")]))] []).syncPaths
        = (configOf [syncPath "/a" "/x" (some (labels [("tier", "db")])),
            syncPath "/b" "/y" (some (labels [("tier", "web")])),
            syncPath "/c" "/z" (some (labels [("tier", "db")]))] []).syncPaths.filter
          (fun v => !removalCriterion false "" "" query v) ∧
      List.Sublist (configOf [syncPath "/b" "/y" (some (labels [("tier", "web")]))] []).syncPaths
        (configOf [syncPath "/a" "/x" (some (labels [("tier", "db")])),
            syncPath "/b" "/y" (some (labels [("tier", "web")])),
            syncPath "/c" "/z" (some (labels [("tier", "db")]))] []).syncPaths :=
  ⟨by decide, RemoveSyncPath_filters okEnv _ _ false "" "" "tier=db" (by decide)⟩

/-- C2, refuted as stated: on the two sync paths `/a` to `/x` and `/b` to `/y` that store
no selector, a removal by the local path `/a` alone does not leave the second one.  With a
nil or an empty stored map the empty query selector equals it and both entries go; with
the selector pointer itself unset the comparison panics. -/
theorem RemoveSyncPath_localPath_only_counterexample :
    RemoveSyncPath okEnv
        (configOf [syncPath "/a" "/x" (some none), syncPath "/b" "/y" (some none)] [])
        false "/a" "" ""
      = .returned (configOf [] []) none ∧
    RemoveSyncPath okEnv
        (configOf [syncPath "/a" "/x" (some (labels [])), syncPath "/b" "/y" (some (labels []))] [])
        false "/a" "" ""
      = .returned (configOf [] []) none ∧
    RemoveSyncPath okEnv
        (configOf [syncPath "/a" "/x" none, syncPath "/b" "/y" none] [])
        false "/a" "" ""
      = .panic := by
  decide

/-- C2, amended: a removal by a non-empty local path alone, on sync paths whose local
path, container path and selector fields are set, returns and leaves the list without the
entries whose local path equals the query, whose container path is the empty string, or
whose stored selector has no entries; it succeeds when the save does. -/
theorem RemoveSyncPath_localPath_only (env : Env) (config : Config) (devSpace : DevSpaceConfig)
    (localPath : String) (hd : config.DevSpace = some devSpace)
    (hset : ∀ v ∈ config.syncPaths, v.fieldsSet = true) (hlp : localPath ≠ "") :
    (RemoveSyncPath env config false localPath "" "").syncPaths?
        = some (config.syncPaths.filter fun v =>
            !(decide (v.LocalSubPath = some localPath) || decide (v.ContainerPath = some "") ||
              v.hasEmptySelector)) ∧
      (env.saveErr = none → (RemoveSyncPath env config false localPath "" "").err? = none) := by
  have h := RemoveSyncPath_of_fieldsSet env config devSpace false localPath "" ""
    (some Entries.empty) hd parseSelectors_empty (fun hg => hlp hg.2.2.1) hset
  simpa only [removalCriterion_pathOnly] using h

/-- C2, the amended claim on the specification's example with the selector `app=x`
stored in both entries: only the entry with local path `/a` goes. -/
theorem RemoveSyncPath_localPath_only_witness :
    RemoveSyncPath okEnv
        (configOf [syncPath "/a" "/x" (some (labels [("app", "x")])),
          syncPath "/b" "/y" (some (labels [("app", "x")]))] [])
        false "/a" "" ""
      = .returned (configOf [syncPath "/b" "/y" (some (labels [("app", "x")]))] []) none ∧
    (RemoveSyncPath okEnv
        (configOf [syncPath "/a" "/x" (some (labels [("app", "x")])),
          syncPath "/b" "/y" (some (labels [("app", "x")]))] [])
        false "/a" "" "").syncPaths?
      = some ((configOf [syncPath "/a" "/x" (some (labels [("app", "x")])),
          syncPath "/b" "/y" (some (labels [("app", "x")]))] []).syncPaths.filter fun v =>
            !(decide (v.LocalSubPath = some "/a") || decide (v.ContainerPath = some "") ||
              v.hasEmptySelector)) :=
  ⟨by decide,
    (RemoveSyncPath_localPath_only okEnv _ _ "/a" rfl (by decide) (by decide)).1⟩

theorem devSpace_setSync_initSync (config : Config) (l : List SyncConfig) :
    ∃ devSpace, (setSync (initSync config) l).DevSpace = some devSpace := by
  simp [setSync, initSync]

theorem syncPaths_setSync_initSync (config : Config) (l : List SyncConfig) :
    (setSync (initSync config) l).syncPaths = l := by
  simp [setSync, initSync, Config.syncPaths]

theorem fieldsSet_newSyncConfig (localPath containerPath nspace serviceName : String)
    (excludedPaths : List String) (labelSelectorMap : LabelMap) :
    (newSyncConfig localPath containerPath nspace serviceName excludedPaths
      labelSelectorMap).fieldsSet = true := by
  simp [newSyncConfig, SyncConfig.fieldsSet]

theorem removalCriterion_newSyncConfig (removeAll : Bool)
    (queryLocalPath queryContainerPath localPath containerPath nspace serviceName : String)
    (excludedPaths : List String) (query : LabelMap) :
    removalCriterion removeAll queryLocalPath queryContainerPath query
      (newSyncConfig localPath containerPath nspace serviceName excludedPaths query) = true := by
  simp [newSyncConfig, removalCriterion, areLabelMapsEqual_self]

/-- C3, refuted as stated: the list holds one sync path with the selector `app=x`; adding
a second one with the selector expression `app=x` succeeds, and removing by `app=x`
afterwards succeeds and leaves the empty list, not the one-entry list from before. -/
theorem Add_then_Remove_counterexample :
    AddSyncPath okEnv (configOf [syncPath "/a" "/x" (some (labels [("app", "x")]))] [])
        "/work/b" "/y" "" "app=x" "" ""
      = .returned (configOf [syncPath "/a" "/x" (some (labels [("app", "x")])),
          syncPath "/b" "/y" (some (labels [("app", "x")]))] []) none ∧
    RemoveSyncPath okEnv (configOf [syncPath "/a" "/x" (some (labels [("app", "x")])),
          syncPath "/b" "/y" (some (labels [("app", "x")]))] []) false "" "" "app=x"
      = .returned (configOf [] []) none ∧
    (configOf [] []).syncPaths
      ≠ (configOf [syncPath "/a" "/x" (some (labels [("app", "x")]))] []).syncPaths := by
  decide

/-- C3, amended: after a successful `AddSyncPath` with a non-empty selector expression and
no service name, on sync paths whose fields are set, `RemoveSyncPath` with the same
expression and no other criterion succeeds when its save does, and leaves the sync paths
from before the add without those that the query matches as well (local path or container
path equal to the empty string, or a stored selector equal to the parsed expression);
when no earlier sync path is matched, it leaves exactly the list from before the add. -/
theorem Add_then_Remove (env env2 : Env) (config config' : Config)
    (localPath containerPath nspace labelSelector excludedPathsString : String)
    (he : labelSelector ≠ "")
    (hadd : AddSyncPath env config localPath containerPath nspace labelSelector
      excludedPathsString "" = .returned config' none)
    (hset : ∀ v ∈ config.syncPaths, v.fieldsSet = true) (hsave : env2.saveErr = none) :
    ∃ query, parseSelectors labelSelector = .ok query ∧
      (RemoveSyncPath env2 config' false "" "" labelSelector).err? = none ∧
      (RemoveSyncPath env2 config' false "" "" labelSelector).syncPaths?
        = some (config.syncPaths.filter fun v => !removalCriterion false "" "" query v) ∧
      ((∀ v ∈ config.syncPaths, removalCriterion false "" "" query v = false) →
        (RemoveSyncPath env2 config' false "" "" labelSelector).syncPaths?
          = some config.syncPaths) := by
  obtain ⟨workdir, query, _, _, _, hq, hcfg⟩ :=
    AddSyncPath_returned_none _ _ _ _ _ _ _ _ _ hadd
  obtain ⟨_, hp⟩ := hq he
  simp only [ne_eq, not_true_eq_false, if_false] at hcfg
  obtain ⟨devSpace, hd⟩ := devSpace_setSync_initSync config (config.syncPaths ++
    [newSyncConfig (strings.TrimPrefix localPath workdir) containerPath nspace ""
      (parseExcludedPaths excludedPathsString) query])
  rw [← hcfg] at hd
  have hpaths : config'.syncPaths = config.syncPaths ++
      [newSyncConfig (strings.TrimPrefix localPath workdir) containerPath nspace ""
        (parseExcludedPaths excludedPathsString) query] := by
    rw [hcfg, syncPaths_setSync_initSync]
  have hlen := parseSelectors_len_pos labelSelector query he hp
  have hset' : ∀ v ∈ config'.syncPaths, v.fieldsSet = true := by
    intro v hv
    rw [hpaths, List.mem_append, List.mem_singleton] at hv
    rcases hv with hv | hv
    · exact hset v hv
    · rw [hv]
      exact fieldsSet_newSyncConfig _ _ _ _ _ _
  obtain ⟨h1, h2⟩ := RemoveSyncPath_of_fieldsSet env2 config' devSpace false "" "" labelSelector
    query hd hp (fun hg => by omega) hset'
  rw [hpaths, List.filter_append] at h1
  simp only [List.filter_cons, List.filter_nil, removalCriterion_newSyncConfig, Bool.not_true,
    Bool.false_eq_true, if_false, List.append_nil] at h1
  refine ⟨query, hp, h2 hsave, h1, ?_⟩
  intro hnone
  rw [h1]
  congr 1
  rw [List.filter_eq_self]
  intro v hv
  simp [hnone v hv]

/-- C3, the amended claim at a concrete list: the earlier sync path stores `tier=db`, the
added one `app=x`; removing by `app=x` gives back the one-entry list. -/
theorem Add_then_Remove_witness :
    AddSyncPath okEnv (configOf [syncPath "/a" "/x" (some (labels [("tier", "db")]))] [])
        "/work/b" "/y" "" "app=x" "" ""
      = .returned (configOf [syncPath "/a" "/x" (some (labels [("tier", "db")])),
          syncPath "/b" "/y" (some (labels [("app", "x")]))] []) none ∧
    RemoveSyncPath okEnv (configOf [syncPath "/a" "/x" (some (labels [("tier", "db")])),
          syncPath "/b" "/y" (some (labels [("app", "x")]))] []) false "" "" "app=x"
      = .returned (configOf [syncPath "/a" "/x" (some (labels [("tier", "db")]))] []) none ∧
    ∃ query, parseSelectors "app=x" = .ok query ∧
      (RemoveSyncPath okEnv (configOf [syncPath "/a" "/x" (some (labels [("tier", "db")])),
          syncPath "/b" "/y" (some (labels [("app", "x")]))] []) false "" "" "app=x").err?
        = none ∧
      (RemoveSyncPath okEnv (configOf [syncPath "/a" "/x" (some (labels [("tier", "db")])),
          syncPath "/b" "/y" (some (labels [("app", "x")]))] []) false "" "" "app=x").syncPaths?
        = some ((configOf [syncPath "/a" "/x" (some (labels [("tier", "db")]))] []).syncPaths.filter
            fun v => !removalCriterion false "" "" query v) :=
  ⟨by decide, by decide,
    (Add_then_Remove okEnv okEnv
      (configOf [syncPath "/a" "/x" (some (labels [("tier", "db")]))] [])
      (configOf [syncPath "/a" "/x" (some (labels [("tier", "db")])),
          syncPath "/b" "/y" (some (labels [("app", "x")]))] [])
      "/work/b" "/y" "" "app=x" "" (by decide) (by decide) (by decide) rfl).imp
      fun _ h => ⟨h.1, h.2.1, h.2.2.1⟩⟩

/-- C4, refuted as stated: with `removeAll` set and the malformed selector expression `a`,
`RemoveSyncPath` returns the selector error and leaves the one sync path in place. -/
theorem RemoveSyncPath_removeAll_counterexample :
    RemoveSyncPath okEnv (configOf [syncPath "/a" "/x" (some (labels [("app", "x")]))] [])
        true "" "" "a"
      = .returned (configOf [syncPath "/a" "/x" (some (labels [("app", "x")]))] [])
          (some (.invalidSelector "a")) := by
  decide

/-- C4, amended: on a configuration with a `DevSpace` section, `RemoveSyncPath` with
`removeAll` set leaves no sync path whenever the selector expression parses, whatever the
paths and the expression are, and it succeeds when the save does; when the expression
does not parse it returns the selector error and leaves the configuration as it was. -/
theorem RemoveSyncPath_removeAll (env : Env) (config : Config) (devSpace : DevSpaceConfig)
    (localPath containerPath labelSelector : String) (hd : config.DevSpace = some devSpace) :
    match parseSelectors labelSelector with
    | .ok _ =>
      (RemoveSyncPath env config true localPath containerPath labelSelector).syncPaths?
          = some [] ∧
        (env.saveErr = none →
          (RemoveSyncPath env config true localPath containerPath labelSelector).err? = none)
    | .error e =>
      RemoveSyncPath env config true localPath containerPath labelSelector
        = .returned config (some (.invalidSelector e)) := by
  unfold RemoveSyncPath
  cases hp : parseSelectors labelSelector with
  | error e => rfl
  | ok query =>
    simp only [hd, Bool.true_eq_false, false_and, and_false, if_false]
    cases hs : devSpace.Sync with
    | none => simp [Outcome.syncPaths?, Outcome.err?, Config.syncPaths, hd, hs]
    | some l =>
      cases l with
      | nil => simp [Outcome.syncPaths?, Outcome.err?, Config.syncPaths, hd, hs]
      | cons v rest =>
        simp only [removeLoop_removeAll]
        cases hsave : env.saveErr with
        | some msg => simp [Outcome.syncPaths?, syncPaths_setSync config devSpace hd]
        | none => simp [Outcome.syncPaths?, Outcome.err?, syncPaths_setSync config devSpace hd]

/-- C4, the amended claim at a concrete input: two sync paths, `removeAll` set together
with a local path and a selector expression that match neither. -/
theorem RemoveSyncPath_removeAll_witness :
    RemoveSyncPath okEnv
        (configOf [syncPath "/a" "/x" (some (labels [("app", "x")])),
          syncPath "/b" "/y" (some none)] [])
        true "/nowhere" "" "tier=db"
      = .returned (configOf [] []) none ∧
    (RemoveSyncPath okEnv
        (configOf [syncPath "/a" "/x" (some (labels [("app", "x")])),
          syncPath "/b" "/y" (some none)] [])
        true "/nowhere" "" "tier=db").syncPaths? = some [] :=
  ⟨by decide,
    (show (RemoveSyncPath okEnv
        (configOf [syncPath "/a" "/x" (some (labels [("app", "x")])),
          syncPath "/b" "/y" (some none)] [])
        true "/nowhere" "" "tier=db").syncPaths? = some [] ∧ _ from
      RemoveSyncPath_removeAll okEnv _ _ "/nowhere" "" "tier=db" rfl).1⟩

/-! ## Claims about the errors of `AddSyncPath` and `RemoveSyncPath` -/

theorem resolveSelector_fail (env : Env) (config : Config) (labelSelector serviceName : String)
    (err : Err) (h : resolveSelector env config labelSelector serviceName = .fail err) :
    err = .serviceNotFound serviceName := by
  unfold resolveSelector at h
  split at h
  · unfold resolveFromCatalog at h
    simp only at h
    split at h
    · simp at h
    · split at h
      · simp at h
      · simp at h
      · split at h
        · split at h
          · simp only [Resolved.fail.injEq] at h
            exact h.symm
          · unfold adoptSelector at h
            split at h <;> simp at h
        · unfold adoptSelector at h
          split at h <;> simp at h
  · simp at h

theorem storeSyncPath_returned_some (env : Env) (config config' : Config)
    (localPath containerPath nspace excludedPathsString serviceName : String)
    (labelSelectorMap : LabelMap) (err : Err)
    (h : storeSyncPath env config localPath containerPath nspace excludedPathsString
      serviceName labelSelectorMap = .returned config' (some err)) :
    (∃ msg, err = .ioError msg) ∨
      (config' = config ∧ ((∃ msg, err = .environmentError msg) ∨
        (err = .invalidContainerPath ∧ containerPath ≠ ""))) := by
  unfold storeSyncPath at h
  cases hw : env.workdir with
  | error msg =>
    simp only [hw, Outcome.returned.injEq, Option.some.injEq] at h
    exact Or.inr ⟨h.1.symm, Or.inl ⟨msg, h.2.symm⟩⟩
  | ok workdir =>
    simp only [hw] at h
    cases hc : containerPath.data with
    | nil => simp [hc] at h
    | cons first rest =>
      have hne : containerPath ≠ "" := by
        intro hempty
        rw [hempty] at hc
        simp at hc
      simp only [hc] at h
      split at h
      · simp only [Outcome.returned.injEq, Option.some.injEq] at h
        exact Or.inr ⟨h.1.symm, Or.inr ⟨h.2.symm, hne⟩⟩
      · cases hsave : env.saveErr with
        | some msg =>
          simp only [hsave, Outcome.returned.injEq, Option.some.injEq] at h
          exact Or.inl ⟨msg, h.2.symm⟩
        | none => simp [hsave] at h

theorem AddSyncPath_returned_some (env : Env) (config config' : Config)
    (localPath containerPath nspace labelSelector excludedPathsString serviceName : String)
    (err : Err)
    (h : AddSyncPath env config localPath containerPath nspace labelSelector
      excludedPathsString serviceName = .returned config' (some err)) :
    (∃ msg, err = .ioError msg) ∨
      (config' = initSync config ∧ (err = .invalidContainerPath → containerPath ≠ "")) := by
  unfold AddSyncPath at h
  simp only at h
  split at h
  · simp only [Outcome.returned.injEq, Option.some.injEq] at h
    refine Or.inr ⟨h.1.symm, fun he => ?_⟩
    rw [he] at h
    simp at h
  · split at h
    · simp at h
    · rename_i err' hres
      simp only [Outcome.returned.injEq, Option.some.injEq] at h
      refine Or.inr ⟨h.1.symm, fun he => ?_⟩
      have := resolveSelector_fail _ _ _ _ _ hres
      rw [← h.2, this] at he
      simp at he
    · rcases storeSyncPath_returned_some _ _ _ _ _ _ _ _ _ _ h with hio | ⟨hc, _ | hi⟩
      · exact Or.inl hio
      · rename_i hmsg
        obtain ⟨msg, hmsg⟩ := hmsg
        exact Or.inr ⟨hc, fun he => by rw [he] at hmsg; simp at hmsg⟩
      · exact Or.inr ⟨hc, fun _ => hi.2⟩
    · split at h
      · simp only [Outcome.returned.injEq, Option.some.injEq] at h
        refine Or.inr ⟨h.1.symm, fun he => ?_⟩
        rw [he] at h
        simp at h
      · rcases storeSyncPath_returned_some _ _ _ _ _ _ _ _ _ _ h with hio | ⟨hc, _ | hi⟩
        · exact Or.inl hio
        · rename_i hmsg
          obtain ⟨msg, hmsg⟩ := hmsg
          exact Or.inr ⟨hc, fun he => by rw [he] at hmsg; simp at hmsg⟩
        · exact Or.inr ⟨hc, fun _ => hi.2⟩

theorem RemoveSyncPath_returned_some (env : Env) (config config' : Config) (removeAll : Bool)
    (localPath containerPath labelSelector : String) (err : Err)
    (h : RemoveSyncPath env config removeAll localPath containerPath labelSelector
      = .returned config' (some err)) :
    (∃ msg, err = .ioError msg) ∨ config' = config := by
  unfold RemoveSyncPath at h
  split at h
  · simp only [Outcome.returned.injEq] at h
    exact Or.inr h.1.symm
  · split at h
    · simp only [Outcome.returned.injEq] at h
      exact Or.inr h.1.symm
    · split at h
      · simp at h
      · split at h
        · simp at h
        · simp at h
        · split at h
          · simp at h
          · split at h
            · simp only [Outcome.returned.injEq, Option.some.injEq] at h
              exact Or.inl ⟨_, h.2.symm⟩
            · simp at h

/-- C5, the code on the empty container path: `AddSyncPath` never returns the
container-path error for it, whatever the other inputs are, and with inputs that pass the
earlier checks the call panics at line 78; `relative` is rejected with the container-path
error and `/app` is accepted. -/
theorem AddSyncPath_empty_containerPath (env : Env) (config : Config)
    (localPath nspace labelSelector excludedPathsString serviceName : String) :
    (AddSyncPath env config localPath "" nspace labelSelector excludedPathsString
        serviceName).err? ≠ some .invalidContainerPath ∧
      AddSyncPath okEnv (configOf [] []) "/work/src" "" "" "app=x" "" "" = .panic ∧
      AddSyncPath okEnv (configOf [] []) "/work/src" "relative" "" "app=x" "" ""
        = .returned (configOf [] []) (some .invalidContainerPath) ∧
      AddSyncPath okEnv (configOf [] []) "/work/src" "/app" "" "app=x" "" ""
        = .returned (configOf [syncPath "/src" "/app" (some (labels [("app", "x")]))] [])
            none := by
  refine ⟨?_, by decide, by decide, by decide⟩
  intro herr
  cases ho : AddSyncPath env config localPath "" nspace labelSelector excludedPathsString
      serviceName with
  | panic => simp [ho, Outcome.err?] at herr
  | returned config' err =>
    simp only [ho, Outcome.err?] at herr
    subst herr
    rcases AddSyncPath_returned_some _ _ _ _ _ _ _ _ _ _ ho with ⟨msg, hmsg⟩ | ⟨_, hne⟩
    · simp at hmsg
    · exact hne rfl rfl

/-- C6, refuted as stated: when the save fails, `AddSyncPath` returns the error with the
new sync path already in the list, and `RemoveSyncPath` returns it with the matched sync
path already gone. -/
theorem failed_call_counterexample :
    AddSyncPath failingSaveEnv (configOf [] []) "/work/src" "/app" "" "app=x" "" ""
      = .returned (configOf [syncPath "/src" "/app" (some (labels [("app", "x")]))] [])
          (some (.ioError "disk full")) ∧
    (configOf [syncPath "/src" "/app" (some (labels [("app", "x")]))] []).syncPaths
      ≠ (configOf [] []).syncPaths ∧
    RemoveSyncPath failingSaveEnv
        (configOf [syncPath "/src" "/app" (some (labels [("app", "x")]))] []) false "/src" "" ""
      = .returned (configOf [] []) (some (.ioError "disk full")) := by
  decide

/-- C6, amended: a call of `AddSyncPath` or `RemoveSyncPath` that returns an error other
than the error of the failed save leaves the sync paths as they were before the call; the
configuration is untouched, or, after `AddSyncPath`, has only had its absent `DevSpace`
section or absent sync list created empty. -/
theorem failed_call_keeps_syncPaths (env : Env) (config config' : Config) (call : Call)
    (err : Err) (h : call.run env config = .returned config' (some err))
    (hio : ∀ msg, err ≠ .ioError msg) :
    config'.syncPaths = config.syncPaths ∧ (config' = config ∨ config' = initSync config) := by
  cases call with
  | add localPath containerPath nspace labelSelector excludedPathsString serviceName =>
    rcases AddSyncPath_returned_some _ _ _ _ _ _ _ _ _ _ h with ⟨msg, hmsg⟩ | ⟨hc, _⟩
    · exact absurd hmsg (hio msg)
    · exact ⟨by rw [hc, syncPaths_initSync], Or.inr hc⟩
  | remove removeAll localPath containerPath labelSelector =>
    rcases RemoveSyncPath_returned_some _ _ _ _ _ _ _ _ h with ⟨msg, hmsg⟩ | hc
    · exact absurd hmsg (hio msg)
    · exact ⟨by rw [hc], Or.inl hc⟩

/-- C6, the amended claim at a concrete call: on a configuration without a `DevSpace`
section, `AddSyncPath` with a relative container path returns the container-path error and
there is still no sync path. -/
theorem failed_call_keeps_syncPaths_witness :
    (Call.add "/work/src" "relative" "" "app=x" "" "").run okEnv { DevSpace := none }
      = .returned (initSync { DevSpace := none }) (some .invalidContainerPath) ∧
    (initSync { DevSpace := none }).syncPaths = Config.syncPaths { DevSpace := none } ∧
    (initSync { DevSpace := none } = { DevSpace := none } ∨
      initSync { DevSpace := none } = initSync { DevSpace := none }) :=
  ⟨by decide,
    failed_call_keeps_syncPaths okEnv { DevSpace := none } (initSync { DevSpace := none })
      (Call.add "/work/src" "relative" "" "app=x" "" "") .invalidContainerPath (by decide)
      (by intro msg hmsg; cases hmsg)⟩

/-- C7: with a non-empty selector expression and a non-empty service name, `AddSyncPath`
returns the conflicting-target error whatever the other inputs are, and the configuration
it leaves has the sync paths from before the call (an absent list, which has no entries,
has by then been created empty). -/
theorem AddSyncPath_conflict (env : Env) (config : Config)
    (localPath containerPath nspace labelSelector excludedPathsString serviceName : String)
    (he : labelSelector ≠ "") (hs : serviceName ≠ "") :
    AddSyncPath env config localPath containerPath nspace labelSelector excludedPathsString
        serviceName = .returned (initSync config) (some .conflictingTargetSpec) ∧
      (AddSyncPath env config localPath containerPath nspace labelSelector excludedPathsString
        serviceName).syncPaths? = some config.syncPaths := by
  have h : AddSyncPath env config localPath containerPath nspace labelSelector
      excludedPathsString serviceName
        = .returned (initSync config) (some .conflictingTargetSpec) := by
    unfold AddSyncPath
    simp [he, hs]
  rw [h]
  exact ⟨rfl, by simp [Outcome.syncPaths?, syncPaths_initSync]⟩

/-- C7, the specification's example: selector expression `a=b` and service name `svc`,
here with an empty container path and a catalog that does not hold `svc`. -/
theorem AddSyncPath_conflict_witness :
    AddSyncPath okEnv
        (configOf [syncPath "/a" "/x" (some (labels [("app", "x")]))]
          [{ Name := "other", LabelSelector := none }])
        "/work/src" "" "" "a=b" "" "svc"
      = .returned
          (initSync (configOf [syncPath "/a" "/x" (some (labels [("app", "x")]))]
            [{ Name := "other", LabelSelector := none }]))
          (some .conflictingTargetSpec) ∧
    (AddSyncPath okEnv
        (configOf [syncPath "/a" "/x" (some (labels [("app", "x")]))]
          [{ Name := "other", LabelSelector := none }])
        "/work/src" "" "" "a=b" "" "svc").syncPaths?
      = some (configOf [syncPath "/a" "/x" (some (labels [("app", "x")]))]
          [{ Name := "other", LabelSelector := none }]).syncPaths :=
  AddSyncPath_conflict okEnv _ "/work/src" "" "" "a=b" "" "svc" (by decide) (by decide)

/-- C8: `RemoveSyncPath` returns the no-criteria error exactly when `removeAll` is false
and the local path, the container path and the selector expression are all empty; the
empty expression is the only one that parses to a selector without entries, and it never
fails to parse. -/
theorem RemoveSyncPath_noCriteria_iff (env : Env) (config : Config) (removeAll : Bool)
    (localPath containerPath labelSelector : String) :
    ((RemoveSyncPath env config removeAll localPath containerPath labelSelector).err?
        = some .noCriteriaSpecified
      ↔ removeAll = false ∧ localPath = "" ∧ containerPath = "" ∧ labelSelector = "") ∧
    (match parseSelectors labelSelector with
      | .ok query => (query.len = 0 ↔ labelSelector = "")
      | .error _ => labelSelector ≠ "") := by
  cases hp : parseSelectors labelSelector with
  | error e =>
    have hne : labelSelector ≠ "" := by
      intro he
      rw [he, parseSelectors_empty] at hp
      simp at hp
    refine ⟨?_, hne⟩
    unfold RemoveSyncPath
    simp [hp, Outcome.err?, hne]
  | ok query =>
    have hlen := parseSelectors_len_eq_zero_iff labelSelector query hp
    refine ⟨?_, hlen⟩
    unfold RemoveSyncPath
    simp only [hp]
    by_cases hg : query.len = 0 ∧ removeAll = false ∧ localPath = "" ∧ containerPath = ""
    · rw [if_pos hg]
      simp only [Outcome.err?, true_iff]
      exact ⟨hg.2.1, hg.2.2.1, hg.2.2.2, hlen.1 hg.1⟩
    · rw [if_neg hg]
      have hrhs : ¬ (removeAll = false ∧ localPath = "" ∧ containerPath = "" ∧
          labelSelector = "") := fun hr => hg ⟨hlen.2 hr.2.2.2, hr.1, hr.2.1, hr.2.2.1⟩
      simp only [hrhs, iff_false]
      split
      · simp [Outcome.err?]
      · split
        · simp [Outcome.err?]
        · simp [Outcome.err?]
        · split
          · simp [Outcome.err?]
          · split <;> simp [Outcome.err?]

/-- C9: a successful `AddSyncPath` with a non-empty service name appends one sync path
that carries the service name and stores the nil selector map, whatever the catalog and
the selector of the service are. -/
theorem AddSyncPath_service_stores_no_selector (env : Env) (config config' : Config)
    (localPath containerPath nspace labelSelector excludedPathsString serviceName : String)
    (hs : serviceName ≠ "")
    (h : AddSyncPath env config localPath containerPath nspace labelSelector
      excludedPathsString serviceName = .returned config' none) :
    ∃ added, config'.syncPaths = config.syncPaths ++ [added] ∧
      added.Service = some serviceName ∧ added.LabelSelector = some none ∧
      added.hasEmptySelector = true := by
  obtain ⟨workdir, resolved, _, _, _, _, hcfg⟩ := AddSyncPath_returned_none _ _ _ _ _ _ _ _ _ h
  refine ⟨_, by rw [hcfg, syncPaths_setSync_initSync], rfl, ?_, ?_⟩
  · simp [newSyncConfig, hs]
  · simp [newSyncConfig, hs, SyncConfig.hasEmptySelector, LabelMap.len]

/-- C9, the specification's example: service name `svc`, and a catalog in which `svc`
has the selector `tier=x`. -/
theorem AddSyncPath_service_stores_no_selector_witness :
    AddSyncPath okEnv
        (configOf [] svcCatalog)
        "/work/src" "/app" "" "" "" "svc"
      = .returned
          (configOf [newSyncConfig "/src" "/app" "" "svc" [] none]
            svcCatalog) none ∧
    ∃ added,
      (configOf [newSyncConfig "/src" "/app" "" "svc" [] none]
          svcCatalog).syncPaths
        = (configOf [] svcCatalog).syncPaths ++ [added] ∧
      added.Service = some "svc" ∧ added.LabelSelector = some none ∧
      added.hasEmptySelector = true :=
  ⟨by decide,
    AddSyncPath_service_stores_no_selector okEnv _ _ "/work/src" "/app" "" "" "" "svc"
      (by decide) (by decide)⟩

/-- C10: `areLabelMapsEqual a b` holds exactly when `a` and `b` give the same answer to
every lookup, that is, hold the same keys with the same values; so it is reflexive and
symmetric, the nil map and the empty map are equal to themselves and to each other, and
the empty map is not equal to the map with the one entry `a` to `b`. -/
theorem areLabelMapsEqual_spec (a b : LabelMap) :
    (areLabelMapsEqual a b = true ↔ ∀ k, a.get k = b.get k) ∧
    areLabelMapsEqual a a = true ∧
    areLabelMapsEqual a b = areLabelMapsEqual b a ∧
    areLabelMapsEqual (labels []) (labels []) = true ∧
    areLabelMapsEqual none (labels []) = true ∧
    areLabelMapsEqual (labels []) (labels [("a", "b")]) = false :=
  ⟨areLabelMapsEqual_iff_get a b, areLabelMapsEqual_self a, areLabelMapsEqual_comm a b,
    by decide, by decide, by decide⟩

/-! ## `parseSelectors`: which expressions parse, and to what -/

theorem length_splitChars (sep : Char) (cs : List Char) :
    (splitChars sep cs).length = cs.count sep + 1 := by
  induction cs with
  | nil => simp [splitChars]
  | cons c cs ih =>
    unfold splitChars
    by_cases h : c = sep
    · subst h
      simp [ih]
    · have hbeq : (c == sep) = false := by simpa using h
      rw [if_neg h, List.count_cons, hbeq]
      cases hs : splitChars sep cs with
      | nil => exact absurd hs (splitChars_ne_nil sep cs)
      | cons w ws =>
        rw [hs] at ih
        simpa using ih

theorem length_Split (s : String) (sep : Char) :
    (strings.Split s sep).length = s.data.count sep + 1 := by
  simp [strings.Split, length_splitChars]

theorem tokenPair_eq_none_iff (token : String) :
    tokenPair token = none ↔ (strings.Split token '=').length ≠ 2 := by
  unfold tokenPair
  cases strings.Split token '=' with
  | nil => simp
  | cons a l1 =>
    cases l1 with
    | nil => simp
    | cons b l2 =>
      cases l2 with
      | nil => simp
      | cons c l3 => simp

theorem tokenPair_eq_none_iff_count (token : String) :
    tokenPair token = none ↔ token.data.count '=' ≠ 1 := by
  rw [tokenPair_eq_none_iff, length_Split]
  omega

theorem parseLoop_cons (selectorString token : String) (rest : List String) (m : Entries) :
    parseLoop selectorString (token :: rest) m
      = match tokenPair token with
        | some p => parseLoop selectorString rest (m.insert p.1 p.2)
        | none => .error selectorString := by
  rw [parseLoop]
  unfold tokenPair
  cases strings.Split token '=' with
  | nil => rfl
  | cons a l1 =>
    cases l1 with
    | nil => rfl
    | cons b l2 =>
      cases l2 with
      | nil => rfl
      | cons c l3 => rfl

theorem parseLoop_error (selectorString : String) (tokens : List String) (m : Entries)
    (e : String) (h : parseLoop selectorString tokens m = .error e) :
    e = selectorString ∧ ∃ token ∈ tokens, tokenPair token = none := by
  induction tokens generalizing m with
  | nil => simp [parseLoop] at h
  | cons token rest ih =>
    rw [parseLoop_cons] at h
    cases hp : tokenPair token with
    | none =>
      simp only [hp, Except.error.injEq] at h
      exact ⟨h.symm, token, List.mem_cons_self _ _, hp⟩
    | some p =>
      simp only [hp] at h
      obtain ⟨he, t, ht, hnone⟩ := ih _ h
      exact ⟨he, t, List.mem_cons_of_mem _ ht, hnone⟩

theorem parseLoop_ok (selectorString : String) (tokens : List String) (m r : Entries)
    (h : parseLoop selectorString tokens m = .ok r) :
    (∀ token ∈ tokens, tokenPair token ≠ none) ∧
      tokens.filterMap tokenPair = tokens.map fun token => (tokenPair token).getD ("", "") := by
  induction tokens generalizing m with
  | nil => simp
  | cons token rest ih =>
    rw [parseLoop_cons] at h
    cases hp : tokenPair token with
    | none => simp [hp] at h
    | some p =>
      simp only [hp] at h
      obtain ⟨h1, h2⟩ := ih _ h
      constructor
      · intro t ht
        rcases List.mem_cons.1 ht with rfl | ht
        · simp [hp]
        · exact h1 t ht
      · simp [List.filterMap_cons, hp, h2]

theorem parseLoop_total (selectorString : String) (tokens : List String) (m : Entries)
    (h : ∀ token ∈ tokens, tokenPair token ≠ none) :
    ∃ r, parseLoop selectorString tokens m = .ok r := by
  induction tokens generalizing m with
  | nil => exact ⟨m, rfl⟩
  | cons token rest ih =>
    rw [parseLoop_cons]
    cases hp : tokenPair token with
    | none => exact absurd hp (h token (List.mem_cons_self _ _))
    | some p => exact ih _ fun t ht => h t (List.mem_cons_of_mem _ ht)

theorem lookup_assign (k v k' : String) (l : List (String × String)) :
    (assign k v l).lookup k' = if k' = k then some v else l.lookup k' := by
  induction l with
  | nil =>
    by_cases h : k' = k
    · simp [assign, List.lookup_cons, h]
    · have hb : (k' == k) = false := by simpa using h
      simp [assign, List.lookup_cons, h, hb]
  | cons e es ih =>
    obtain ⟨a, b⟩ := e
    unfold assign
    by_cases ha : a = k
    · subst ha
      by_cases h : k' = a
      · simp [List.lookup_cons, h]
      · have hb : (k' == a) = false := by simpa using h
        simp [List.lookup_cons, h, hb]
    · simp only [ha, if_false]
      by_cases h : k' = a
      · subst h
        have hne : ¬ k' = k := ha
        simp [List.lookup_cons, hne]
      · have hb : (k' == a) = false := by simpa using h
        simp [List.lookup_cons, hb, ih]

theorem parseLoop_lookup (selectorString : String) (tokens : List String) (m r : Entries)
    (h : parseLoop selectorString tokens m = .ok r) (k : String) :
    r.list.lookup k
      = match lastValue k (tokens.filterMap tokenPair) with
        | some v => some v
        | none => m.list.lookup k := by
  induction tokens generalizing m with
  | nil =>
    simp only [parseLoop, Except.ok.injEq] at h
    simp [lastValue, h]
  | cons token rest ih =>
    rw [parseLoop_cons] at h
    cases hp : tokenPair token with
    | none => simp [hp] at h
    | some p =>
      simp only [hp] at h
      rw [ih _ h, List.filterMap_cons, hp]
      simp only [lastValue, Entries.insert, lookup_assign]
      cases lastValue k (List.filterMap tokenPair rest) with
      | some v => rfl
      | none =>
        by_cases hk : k = p.1
        · simp [hk]
        · have hk' : ¬ p.1 = k := fun e => hk e.symm
          simp [hk, hk']

theorem parseLoop_keys (selectorString : String) (tokens : List String) (m r : Entries)
    (h : parseLoop selectorString tokens m = .ok r) (k : String) :
    k ∈ r.list.map Prod.fst
      ↔ k ∈ m.list.map Prod.fst ∨ k ∈ (tokens.filterMap tokenPair).map Prod.fst := by
  induction tokens generalizing m with
  | nil =>
    simp only [parseLoop, Except.ok.injEq] at h
    simp [h]
  | cons token rest ih =>
    rw [parseLoop_cons] at h
    cases hp : tokenPair token with
    | none => simp [hp] at h
    | some p =>
      simp only [hp] at h
      rw [ih _ h, List.filterMap_cons, hp]
      simp only [Entries.insert, map_fst_assign]
      by_cases hm : p.1 ∈ m.list.map Prod.fst
      · rw [if_pos hm]
        constructor
        · rintro (h1 | h1)
          · exact Or.inl h1
          · exact Or.inr (by simp only [List.map_cons, List.mem_cons]; exact Or.inr h1)
        · rintro (h1 | h1)
          · exact Or.inl h1
          · simp only [List.map_cons, List.mem_cons] at h1
            rcases h1 with rfl | h1
            · exact Or.inl hm
            · exact Or.inr h1
      · rw [if_neg hm]
        simp only [List.mem_append, List.mem_singleton, List.map_cons, List.mem_cons]
        tauto

theorem parseSelectors_of_ne (selectorString : String) (hne : selectorString ≠ "") :
    parseSelectors selectorString
      = match parseLoop selectorString (strings.Split selectorString ',') Entries.empty with
        | .ok selectorMap => .ok (some selectorMap)
        | .error e => .error e := by
  unfold parseSelectors
  rw [if_neg hne]

theorem lookup_append (k : String) (l₁ l₂ : List (String × String)) :
    (l₁ ++ l₂).lookup k
      = match l₁.lookup k with
        | some v => some v
        | none => l₂.lookup k := by
  induction l₁ with
  | nil => simp
  | cons e es ih =>
    obtain ⟨a, b⟩ := e
    by_cases h : k = a
    · simp [List.lookup_cons, h]
    · have hb : (k == a) = false := by simpa using h
      simp [List.lookup_cons, hb, ih]

theorem lastValue_eq_lookup_reverse (k : String) (pairs : List (String × String)) :
    lastValue k pairs = pairs.reverse.lookup k := by
  induction pairs with
  | nil => simp [lastValue]
  | cons p rest ih =>
    obtain ⟨a, b⟩ := p
    rw [lastValue, List.reverse_cons, lookup_append, ← ih]
    cases lastValue k rest with
    | some v => rfl
    | none =>
      by_cases h : k = a
      · simp [List.lookup_cons, h]
      · have hb : (k == a) = false := by simpa using h
        have h' : ¬ a = k := fun e => h e.symm
        simp [List.lookup_cons, hb, h']

/-- C11: the empty expression parses to the empty selector; `parseSelectors` fails exactly
on a non-empty expression that has a comma-separated token which does not split into
exactly two parts around `=`, that is, a token that does not contain exactly one `=`; the
error then carries the whole expression.  The expressions `a=b=c` and `a` fail. -/
theorem parseSelectors_fails_iff (selectorString : String) :
    parseSelectors "" = .ok (some Entries.empty) ∧
    ((∃ e, parseSelectors selectorString = .error e) ↔
      selectorString ≠ "" ∧
        ∃ token ∈ strings.Split selectorString ',', (strings.Split token '=').length ≠ 2) ∧
    (∀ token : String, (strings.Split token '=').length ≠ 2 ↔ token.data.count '=' ≠ 1) ∧
    (∀ e, parseSelectors selectorString = .error e → e = selectorString) ∧
    parseSelectors "a=b=c" = .error "a=b=c" ∧ parseSelectors "a" = .error "a" := by
  refine ⟨parseSelectors_empty, ?_, ?_, ?_, by decide, by decide⟩
  · by_cases hne : selectorString = ""
    · subst hne
      simp [parseSelectors_empty]
    · rw [parseSelectors_of_ne _ hne]
      simp only [ne_eq, hne, not_false_eq_true, true_and]
      cases hl : parseLoop selectorString (strings.Split selectorString ',') Entries.empty with
      | error e =>
        obtain ⟨_, token, ht, hnone⟩ := parseLoop_error _ _ _ _ hl
        simp only [Except.error.injEq, exists_eq', true_iff]
        exact ⟨token, ht, (tokenPair_eq_none_iff token).1 hnone⟩
      | ok r =>
        constructor
        · rintro ⟨e, he⟩
          simp at he
        · rintro ⟨token, ht, hlen⟩
          exact absurd ((tokenPair_eq_none_iff token).2 hlen)
            ((parseLoop_ok _ _ _ _ hl).1 token ht)
  · intro token
    rw [← tokenPair_eq_none_iff, tokenPair_eq_none_iff_count]
  · intro e he
    by_cases hne : selectorString = ""
    · subst hne
      simp [parseSelectors_empty] at he
    · rw [parseSelectors_of_ne _ hne] at he
      cases hl : parseLoop selectorString (strings.Split selectorString ',') Entries.empty with
      | error e' =>
        simp only [hl, Except.error.injEq] at he
        rw [← he]
        exact (parseLoop_error _ _ _ _ hl).1
      | ok r => simp [hl] at he

/-- C12, refuted as stated: the expression `a=b,a=c` has two tokens with one `=` each and
parses to a selector with one entry, the key `a` with the value `c`. -/
theorem parseSelectors_size_counterexample :
    (strings.Split "a=b,a=c" ',').length = 2 ∧
    (strings.Split "a=b,a=c" ',').all (fun token => token.data.count '=' == 1) = true ∧
    parseSelectors "a=b,a=c" = .ok (labels [("a", "c")]) ∧
    LabelMap.len (labels [("a", "c")]) = 1 := by
  decide

/-- C12, amended: an expression whose comma-separated tokens contain exactly one `=` each
parses, and the selector has one entry for every distinct trimmed key: at least one entry,
at most as many as there are tokens, and exactly as many when the trimmed keys of the
tokens differ from one another. -/
theorem parseSelectors_size (selectorString : String)
    (h : ∀ token ∈ strings.Split selectorString ',', token.data.count '=' = 1) :
    ∃ selector, parseSelectors selectorString = .ok selector ∧
      selector.len = ((tokenPairs selectorString).map Prod.fst).dedup.length ∧
      1 ≤ selector.len ∧ selector.len ≤ (strings.Split selectorString ',').length ∧
      (((tokenPairs selectorString).map Prod.fst).Nodup →
        selector.len = (strings.Split selectorString ',').length) := by
  have hne : selectorString ≠ "" := by
    intro he
    subst he
    have := h "" (by decide)
    simp at this
  have hall : ∀ token ∈ strings.Split selectorString ',', tokenPair token ≠ none := by
    intro token ht hnone
    exact (tokenPair_eq_none_iff_count token).1 hnone (h token ht)
  obtain ⟨r, hr⟩ := parseLoop_total selectorString _ Entries.empty hall
  have hparse : parseSelectors selectorString = .ok (some r) := by
    rw [parseSelectors_of_ne _ hne, hr]
  have hkeys : (r.list.map Prod.fst).Perm ((tokenPairs selectorString).map Prod.fst).dedup := by
    rw [List.perm_ext_iff_of_nodup r.nodupKeys (List.nodup_dedup _)]
    intro k
    rw [List.mem_dedup, parseLoop_keys _ _ _ _ hr k]
    simp [Entries.empty, tokenPairs]
  have hlen : LabelMap.len (some r)
      = ((tokenPairs selectorString).map Prod.fst).dedup.length := by
    rw [← hkeys.length_eq]
    simp [LabelMap.len]
  have hcount : (tokenPairs selectorString).length
      = (strings.Split selectorString ',').length := by
    unfold tokenPairs
    rw [(parseLoop_ok _ _ _ _ hr).2, List.length_map]
  refine ⟨some r, hparse, hlen, parseSelectors_len_pos _ _ hne hparse, ?_, ?_⟩
  · rw [hlen, ← hcount]
    calc ((tokenPairs selectorString).map Prod.fst).dedup.length
        ≤ ((tokenPairs selectorString).map Prod.fst).length :=
          (List.dedup_sublist _).length_le
      _ = (tokenPairs selectorString).length := List.length_map _ _
  · intro hnd
    rw [hlen, hnd.dedup, List.length_map, hcount]

/-- C12, the amended claim on an expression with a repeated key and blanks around the
parts: three tokens, two distinct trimmed keys. -/
theorem parseSelectors_size_witness :
    parseSelectors " a = 1 ,b=2, a=3" = .ok (labels [("a", "3"), ("b", "2")]) ∧
    ∃ selector, parseSelectors " a = 1 ,b=2, a=3" = .ok selector ∧
      selector.len = ((tokenPairs " a = 1 ,b=2, a=3").map Prod.fst).dedup.length ∧
      1 ≤ selector.len ∧ selector.len ≤ (strings.Split " a = 1 ,b=2, a=3" ',').length ∧
      (((tokenPairs " a = 1 ,b=2, a=3").map Prod.fst).Nodup →
        selector.len = (strings.Split " a = 1 ,b=2, a=3" ',').length) :=
  ⟨by decide, parseSelectors_size " a = 1 ,b=2, a=3" (by decide)⟩

/-- C13: when an expression parses, the selector maps a key to the trimmed right part of
the last comma-separated token whose trimmed left part is that key, and holds no key that
is not the trimmed left part of a token; every token of a non-empty expression that
parses is one of these pairs. -/
theorem parseSelectors_last_wins (selectorString : String) (selector : LabelMap)
    (h : parseSelectors selectorString = .ok selector) :
    (∀ k, selector.get k = lastValue k (tokenPairs selectorString)) ∧
    (∀ k, selector.get k = (tokenPairs selectorString).reverse.lookup k) ∧
    (∀ k, (∃ v, selector.get k = some v) ↔ k ∈ (tokenPairs selectorString).map Prod.fst) ∧
    (selectorString ≠ "" →
      (strings.Split selectorString ',').map (fun token => tokenPair token)
        = (tokenPairs selectorString).map some) := by
  have hget : ∀ k, selector.get k = lastValue k (tokenPairs selectorString) := by
    intro k
    by_cases hne : selectorString = ""
    · subst hne
      rw [parseSelectors_empty] at h
      simp only [Except.ok.injEq] at h
      subst h
      rfl
    · rw [parseSelectors_of_ne _ hne] at h
      cases hl : parseLoop selectorString (strings.Split selectorString ',') Entries.empty with
      | error e => simp [hl] at h
      | ok r =>
        simp only [hl, Except.ok.injEq] at h
        subst h
        rw [LabelMap.get, parseLoop_lookup _ _ _ _ hl k]
        unfold tokenPairs
        cases lastValue k (List.filterMap tokenPair (strings.Split selectorString ',')) with
        | some v => rfl
        | none => simp [Entries.empty]
  refine ⟨hget, fun k => by rw [hget, lastValue_eq_lookup_reverse], ?_, ?_⟩
  · intro k
    by_cases hne : selectorString = ""
    · subst hne
      rw [parseSelectors_empty] at h
      simp only [Except.ok.injEq] at h
      subst h
      have ht : tokenPairs "" = [] := by decide
      simp [ht, LabelMap.get, Entries.empty]
    · rw [parseSelectors_of_ne _ hne] at h
      cases hl : parseLoop selectorString (strings.Split selectorString ',') Entries.empty with
      | error e => simp [hl] at h
      | ok r =>
        simp only [hl, Except.ok.injEq] at h
        subst h
        have hk := parseLoop_keys _ _ _ _ hl k
        simp only [Entries.empty, List.map_nil, List.not_mem_nil, false_or] at hk
        rw [← tokenPairs] at hk
        rw [← hk, LabelMap.get]
        constructor
        · rintro ⟨v, hv⟩
          exact List.mem_map.2 ⟨(k, v), (lookup_eq_some_iff _ r.nodupKeys k v).1 hv, rfl⟩
        · intro hmem
          obtain ⟨⟨a, v⟩, hp, rfl⟩ := List.mem_map.1 hmem
          exact ⟨v, (lookup_eq_some_iff _ r.nodupKeys a v).2 hp⟩
  · intro hne
    rw [parseSelectors_of_ne _ hne] at h
    cases hl : parseLoop selectorString (strings.Split selectorString ',') Entries.empty with
    | error e => simp [hl] at h
    | ok r =>
      obtain ⟨hall, hmap⟩ := parseLoop_ok _ _ _ _ hl
      unfold tokenPairs
      rw [hmap, List.map_map]
      apply List.map_congr_left
      intro token ht
      cases hp : tokenPair token with
      | none => exact absurd hp (hall token ht)
      | some p => simp [hp]

/-- C13 on an expression with a repeated key and blanks around the parts. -/
theorem parseSelectors_last_wins_witness :
    parseSelectors " a = 1 ,b=2, a=3" = .ok (labels [("a", "3"), ("b", "2")]) ∧
    tokenPairs " a = 1 ,b=2, a=3" = [("a", "1"), ("b", "2"), ("a", "3")] ∧
    LabelMap.get (labels [("a", "3"), ("b", "2")]) "a" = some "3" ∧
    ∀ k, LabelMap.get (labels [("a", "3"), ("b", "2")]) k
      = lastValue k (tokenPairs " a = 1 ,b=2, a=3") :=
  ⟨by decide, by decide, by decide,
    (parseSelectors_last_wins " a = 1 ,b=2, a=3" (labels [("a", "3"), ("b", "2")])
      (by decide)).1⟩

/-! ## The successful runs of `RemoveSyncPath` -/

theorem removeLoop_survivors (removeAll : Bool) (localPath containerPath : String)
    (query : LabelMap) (l acc r : List SyncConfig)
    (h : removeLoop removeAll localPath containerPath query l acc = some r) :
    ∀ v ∈ r, v ∈ acc ∨
      (v ∈ l ∧ matchesQuery removeAll localPath containerPath query v = some false) := by
  induction l generalizing acc with
  | nil =>
    simp only [removeLoop, Option.some.injEq] at h
    subst h
    exact fun v hv => Or.inl hv
  | cons w rest ih =>
    unfold removeLoop at h
    cases hm : matchesQuery removeAll localPath containerPath query w with
    | none => simp [hm] at h
    | some b =>
      cases b with
      | true =>
        simp only [hm] at h
        intro v hv
        rcases ih acc h v hv with h1 | ⟨h1, h2⟩
        · exact Or.inl h1
        · exact Or.inr ⟨List.mem_cons_of_mem _ h1, h2⟩
      | false =>
        simp only [hm] at h
        intro v hv
        rcases ih _ h v hv with h1 | ⟨h1, h2⟩
        · rcases List.mem_append.1 h1 with h3 | h3
          · exact Or.inl h3
          · rw [List.mem_singleton] at h3
            subst h3
            exact Or.inr ⟨List.mem_cons_self _ _, hm⟩
        · exact Or.inr ⟨List.mem_cons_of_mem _ h1, h2⟩

theorem RemoveSyncPath_returned_none (env : Env) (config config' : Config) (removeAll : Bool)
    (localPath containerPath labelSelector : String)
    (h : RemoveSyncPath env config removeAll localPath containerPath labelSelector
      = .returned config' none) :
    ∃ query, parseSelectors labelSelector = .ok query ∧
      config'.catalog = config.catalog ∧
      config'.syncPaths = config.syncPaths.filter
        (fun v => !removalCriterion removeAll localPath containerPath query v) ∧
      ∀ v ∈ config'.syncPaths,
        matchesQuery removeAll localPath containerPath query v = some false := by
  unfold RemoveSyncPath at h
  cases hp : parseSelectors labelSelector with
  | error e => simp [hp] at h
  | ok query =>
    refine ⟨query, rfl, ?_⟩
    simp only [hp] at h
    split at h
    · simp at h
    · cases hd : config.DevSpace with
      | none => simp [hd] at h
      | some devSpace =>
        cases hs : devSpace.Sync with
        | none =>
          simp only [hd, hs, Outcome.returned.injEq, and_true] at h
          subst h
          simp [Config.syncPaths, hd, hs]
        | some l =>
          cases l with
          | nil =>
            simp only [hd, hs, Outcome.returned.injEq, and_true] at h
            subst h
            simp [Config.syncPaths, hd, hs]
          | cons v rest =>
            simp only [hd, hs] at h
            cases hr : removeLoop removeAll localPath containerPath query (v :: rest) [] with
            | none => simp [hr] at h
            | some r =>
              simp only [hr] at h
              cases hsave : env.saveErr with
              | some msg => simp [hsave] at h
              | none =>
                simp only [hsave, Outcome.returned.injEq, and_true] at h
                subst h
                rw [syncPaths_setSync config devSpace hd,
                  syncPaths_of_sync config devSpace hd _ hs]
                refine ⟨by simp [setSync, Config.catalog, hd], ?_, ?_⟩
                · rw [removeLoop_eq_some _ _ _ _ _ _ _ hr]
                  simp
                · intro w hw
                  rcases removeLoop_survivors _ _ _ _ _ _ _ hr w hw with h1 | ⟨_, h2⟩
                  · simp at h1
                  · exact h2

theorem selector_of_matchesQuery_false (removeAll : Bool) (localPath containerPath : String)
    (query : LabelMap) (v : SyncConfig)
    (h : matchesQuery removeAll localPath containerPath query v = some false) :
    ∃ stored, v.LabelSelector = some stored ∧ areLabelMapsEqual query stored = false := by
  obtain ⟨sel, cpath, lpath, ex, ns, svc⟩ := v
  unfold matchesQuery at h
  cases removeAll
  · cases lpath with
    | none => simp at h
    | some l =>
      by_cases h1 : localPath = l
      · simp [h1] at h
      · cases cpath with
        | none => simp [h1] at h
        | some p =>
          by_cases h2 : containerPath = p
          · simp [h1, h2] at h
          · cases sel with
            | none => simp [h1, h2] at h
            | some stored =>
              simp [h1, h2] at h
              exact ⟨stored, rfl, h⟩
  · simp at h

/-! ## The catalog and the resolution of the selector -/

theorem catalog_initSync (config : Config) : (initSync config).catalog = config.catalog := by
  obtain ⟨d⟩ := config
  cases d with
  | none => simp [initSync, Config.catalog]
  | some d => simp [initSync, Config.catalog]

theorem catalog_setSync (config : Config) (l : List SyncConfig) :
    (setSync config l).catalog = config.catalog := by
  obtain ⟨d⟩ := config
  cases d with
  | none => simp [setSync, Config.catalog]
  | some d => simp [setSync, Config.catalog]

theorem resolveFromCatalog_eq (env : Env) (config : Config) (serviceName : String) :
    resolveFromCatalog env config serviceName
      = match config.catalog with
        | [] => .vars none ("release=" ++ env.firstHelmDeployment)
        | first :: others =>
          if serviceName ≠ "" then
            match getServiceWithName (first :: others) serviceName with
            | none => .fail (.serviceNotFound serviceName)
            | some service => adoptSelector service
          else adoptSelector first := by
  obtain ⟨d⟩ := config
  unfold resolveFromCatalog Config.catalog
  cases d with
  | none => rfl
  | some d =>
    cases hs : d.Services with
    | none => simp [hs]
    | some l =>
      cases l with
      | nil => simp [hs]
      | cons first others => simp [hs]

theorem AddSyncPath_empty_selector (env : Env) (config : Config)
    (localPath containerPath nspace excludedPathsString serviceName : String) :
    AddSyncPath env config localPath containerPath nspace "" excludedPathsString serviceName
      = match resolveFromCatalog env (initSync config) serviceName with
        | .panic => .panic
        | .fail err => .returned (initSync config) (some err)
        | .vars (some selectorMap) _ =>
          storeSyncPath env (initSync config) localPath containerPath nspace
            excludedPathsString serviceName (some selectorMap)
        | .vars none labelSelector =>
          match parseSelectors labelSelector with
          | .error e => .returned (initSync config) (some (.invalidSelector e))
          | .ok labelSelectorMap =>
            storeSyncPath env (initSync config) localPath containerPath nspace
              excludedPathsString serviceName labelSelectorMap := by
  unfold AddSyncPath
  simp [resolveSelector]

theorem storeSyncPath_of_ok (env : Env) (config : Config)
    (localPath containerPath nspace excludedPathsString serviceName workdir : String)
    (labelSelectorMap : LabelMap) (rest : List Char)
    (hw : env.workdir = .ok workdir) (hsave : env.saveErr = none)
    (hc : containerPath.data = '/' :: rest) :
    storeSyncPath env config localPath containerPath nspace excludedPathsString serviceName
        labelSelectorMap
      = .returned (setSync config (config.syncPaths ++
          [newSyncConfig (strings.TrimPrefix localPath workdir) containerPath nspace
            serviceName (parseExcludedPaths excludedPathsString)
            (if serviceName ≠ "" then none else labelSelectorMap)])) none := by
  unfold storeSyncPath
  simp [hw, hsave, hc]

theorem storeSyncPath_err_ne_serviceNotFound (env : Env) (config : Config)
    (localPath containerPath nspace excludedPathsString serviceName name : String)
    (labelSelectorMap : LabelMap) :
    (storeSyncPath env config localPath containerPath nspace excludedPathsString serviceName
      labelSelectorMap).err? ≠ some (.serviceNotFound name) := by
  intro herr
  cases ho : storeSyncPath env config localPath containerPath nspace excludedPathsString
      serviceName labelSelectorMap with
  | panic => simp [ho, Outcome.err?] at herr
  | returned config' err =>
    simp only [ho, Outcome.err?] at herr
    subst herr
    rcases storeSyncPath_returned_some _ _ _ _ _ _ _ _ _ _ ho with
      ⟨msg, hmsg⟩ | ⟨_, ⟨msg, hmsg⟩ | ⟨hmsg, _⟩⟩ <;> simp at hmsg

theorem getServiceWithName_eq_none_iff (services : List ServiceConfig) (name : String) :
    getServiceWithName services name = none ↔ ∀ service ∈ services, service.Name ≠ name := by
  simp [getServiceWithName, List.find?_eq_none]

theorem getServiceWithName_some (services : List ServiceConfig) (name : String)
    (picked : ServiceConfig) (h : getServiceWithName services name = some picked) :
    picked ∈ services ∧ picked.Name = name := by
  unfold getServiceWithName at h
  exact ⟨List.mem_of_find?_eq_some h, by simpa using List.find?_some h⟩

/-! ## Claims about `AddSyncPath` -/

/-- C14: a successful `AddSyncPath` leaves the sync paths from before the call followed by
exactly one new sync path: the list is one longer, every earlier sync path is unchanged at
its position, and the new one carries the given container path, namespace and service
name. -/
theorem AddSyncPath_appends (env : Env) (config config' : Config)
    (localPath containerPath nspace labelSelector excludedPathsString serviceName : String)
    (h : AddSyncPath env config localPath containerPath nspace labelSelector
      excludedPathsString serviceName = .returned config' none) :
    ∃ added, config'.syncPaths = config.syncPaths ++ [added] ∧
      config'.syncPaths.length = config.syncPaths.length + 1 ∧
      (∀ i, i < config.syncPaths.length → config'.syncPaths[i]? = config.syncPaths[i]?) ∧
      added.ContainerPath = some containerPath ∧ added.Namespace = some nspace ∧
      added.Service = some serviceName := by
  obtain ⟨workdir, resolved, _, _, _, _, hcfg⟩ := AddSyncPath_returned_none _ _ _ _ _ _ _ _ _ h
  have hpaths := syncPaths_setSync_initSync config (config.syncPaths ++
    [newSyncConfig (strings.TrimPrefix localPath workdir) containerPath nspace serviceName
      (parseExcludedPaths excludedPathsString)
      (if serviceName ≠ "" then none else resolved)])
  rw [← hcfg] at hpaths
  refine ⟨_, hpaths, by simp [hpaths], ?_, rfl, rfl, rfl⟩
  intro i hi
  rw [hpaths, List.getElem?_append_left hi]

/-- C14 at a concrete call: a second sync path is added behind the first. -/
theorem AddSyncPath_appends_witness :
    AddSyncPath okEnv (configOf [syncPath "/a" "/x" (some (labels [("tier", "db")]))] [])
        "/work/b" "/y" "prod" "app=x" "" ""
      = .returned (configOf [syncPath "/a" "/x" (some (labels [("tier", "db")])),
          newSyncConfig "/b" "/y" "prod" "" [] (labels [("app", "x")])] []) none ∧
    ∃ added,
      (configOf [syncPath "/a" "/x" (some (labels [("tier", "db")])),
          newSyncConfig "/b" "/y" "prod" "" [] (labels [("app", "x")])] []).syncPaths
        = (configOf [syncPath "/a" "/x" (some (labels [("tier", "db")]))] []).syncPaths
            ++ [added] ∧
      (configOf [syncPath "/a" "/x" (some (labels [("tier", "db")])),
          newSyncConfig "/b" "/y" "prod" "" [] (labels [("app", "x")])] []).syncPaths.length
        = (configOf [syncPath "/a" "/x" (some (labels [("tier", "db")]))] []).syncPaths.length
            + 1 ∧
      (∀ i, i < (configOf [syncPath "/a" "/x"
            (some (labels [("tier", "db")]))] []).syncPaths.length →
        (configOf [syncPath "/a" "/x" (some (labels [("tier", "db")])),
            newSyncConfig "/b" "/y" "prod" "" [] (labels [("app", "x")])] []).syncPaths[i]?
          = (configOf [syncPath "/a" "/x" (some (labels [("tier", "db")]))] []).syncPaths[i]?) ∧
      added.ContainerPath = some "/y" ∧ added.Namespace = some "prod" ∧
      added.Service = some "" :=
  ⟨by decide,
    AddSyncPath_appends okEnv _ _ "/work/b" "/y" "prod" "app=x" "" "" (by decide)⟩

/-- C15: with an empty selector expression, a non-empty catalog and a non-empty service
name, `AddSyncPath` returns the service-not-found error exactly when no service of the
catalog has that name; when one has, the selector is resolved from a service of the
catalog with that name (the first such one), whichever place it has in the catalog. -/
theorem AddSyncPath_serviceNotFound_iff (env : Env) (config : Config)
    (localPath containerPath nspace excludedPathsString serviceName : String)
    (hs : serviceName ≠ "") (hcat : config.catalog ≠ []) :
    ((∃ name, (AddSyncPath env config localPath containerPath nspace "" excludedPathsString
          serviceName).err? = some (.serviceNotFound name))
        ↔ ∀ service ∈ config.catalog, service.Name ≠ serviceName) ∧
    ((∀ service ∈ config.catalog, service.Name ≠ serviceName) →
      AddSyncPath env config localPath containerPath nspace "" excludedPathsString serviceName
        = .returned (initSync config) (some (.serviceNotFound serviceName))) ∧
    (∀ picked, getServiceWithName config.catalog serviceName = some picked →
      picked ∈ config.catalog ∧ picked.Name = serviceName ∧
      resolveSelector env (initSync config) "" serviceName = adoptSelector picked) := by
  cases hc : config.catalog with
  | nil => exact absurd hc hcat
  | cons first others =>
    have hres : resolveFromCatalog env (initSync config) serviceName
        = match getServiceWithName (first :: others) serviceName with
          | none => .fail (.serviceNotFound serviceName)
          | some service => adoptSelector service := by
      rw [resolveFromCatalog_eq, catalog_initSync, hc]
      simp [hs]
    have hadd := AddSyncPath_empty_selector env config localPath containerPath nspace
      excludedPathsString serviceName
    rw [hres] at hadd
    cases hg : getServiceWithName (first :: others) serviceName with
    | none =>
      have hall := (getServiceWithName_eq_none_iff _ _).1 hg
      rw [hg] at hadd
      simp only at hadd
      refine ⟨?_, fun _ => hadd, ?_⟩
      · rw [hadd]
        exact ⟨fun _ => hall, fun _ => ⟨serviceName, rfl⟩⟩
      · intro picked hp
        simp at hp
    | some picked =>
      obtain ⟨hmem, hname⟩ := getServiceWithName_some _ _ _ hg
      rw [hg] at hadd
      simp only at hadd
      have hnot : ¬ ∀ service ∈ first :: others, service.Name ≠ serviceName :=
        fun hall => hall picked hmem hname
      refine ⟨?_, fun hall => absurd hall hnot, ?_⟩
      · simp only [hnot, iff_false, not_exists]
        intro name
        rw [hadd]
        unfold adoptSelector
        cases picked.LabelSelector with
        | none => simp [Outcome.err?]
        | some m =>
          cases m with
          | none =>
            simp only [parseSelectors_empty]
            exact storeSyncPath_err_ne_serviceNotFound _ _ _ _ _ _ _ _ _
          | some entries => exact storeSyncPath_err_ne_serviceNotFound _ _ _ _ _ _ _ _ _
      · intro picked' hp
        simp only [Option.some.injEq] at hp
        subst hp
        refine ⟨hmem, hname, ?_⟩
        simp [resolveSelector, hres, hg]

/-- C15 at concrete catalogs: the service `svc` stands second and has no selector set, so
that resolving it panics where the first service would resolve; and a catalog without
`svc` gives the service-not-found error. -/
theorem AddSyncPath_serviceNotFound_iff_witness :
    AddSyncPath okEnv
        (configOf [] webSvcCatalog)
        "/work/src" "/app" "" "" "" "svc" = .panic ∧
    AddSyncPath okEnv
        (configOf [] webCatalog)
        "/work/src" "/app" "" "" "" "svc"
      = .returned (configOf [] webCatalog)
          (some (.serviceNotFound "svc")) ∧
    ((∃ name, (AddSyncPath okEnv
        (configOf [] webCatalog)
        "/work/src" "/app" "" "" "" "svc").err? = some (.serviceNotFound name))
      ↔ ∀ service ∈ (configOf [] webCatalog).catalog,
        service.Name ≠ "svc") :=
  ⟨by decide, by decide,
    (AddSyncPath_serviceNotFound_iff okEnv
      (configOf [] webCatalog)
      "/work/src" "/app" "" "" "svc" (by decide) (by decide)).1⟩

/-! ## `strings.TrimPrefix` -/

theorem stripChars_append (p r : List Char) : stripChars p (p ++ r) = some r := by
  induction p with
  | nil => cases r <;> rfl
  | cons a p ih => simp [stripChars, ih]

theorem stripChars_eq_some (p s r : List Char) (h : stripChars p s = some r) : s = p ++ r := by
  induction p generalizing s with
  | nil =>
    cases s <;> simp_all [stripChars]
  | cons a p ih =>
    cases s with
    | nil => simp [stripChars] at h
    | cons b s =>
      unfold stripChars at h
      by_cases hab : a = b
      · subst hab
        simp only [if_true] at h
        simp [ih s h]
      · simp [hab] at h

theorem TrimPrefix_append (pre rest : String) : strings.TrimPrefix (pre ++ rest) pre = rest := by
  unfold strings.TrimPrefix
  rw [String.data_append, stripChars_append]

theorem TrimPrefix_of_not_startsWith (s pre : String) (h : ¬ ∃ rest, s = pre ++ rest) :
    strings.TrimPrefix s pre = s := by
  unfold strings.TrimPrefix
  cases hs : stripChars pre.data s.data with
  | none => rfl
  | some r =>
    exfalso
    apply h
    refine ⟨String.mk r, ?_⟩
    apply String.ext
    rw [String.data_append]
    exact stripChars_eq_some _ _ _ hs

theorem storeSyncPath_succeeds_for_all_localPaths (env : Env) (config config' : Config)
    (localPath localPath' containerPath nspace excludedPathsString serviceName : String)
    (labelSelectorMap : LabelMap)
    (h : storeSyncPath env config localPath containerPath nspace excludedPathsString
      serviceName labelSelectorMap = .returned config' none) :
    ∃ config'', storeSyncPath env config localPath' containerPath nspace excludedPathsString
      serviceName labelSelectorMap = .returned config'' none := by
  obtain ⟨workdir, hw, hsave, ⟨rest, hc⟩, _⟩ := storeSyncPath_returned_none _ _ _ _ _ _ _ _ _ h
  exact ⟨_, storeSyncPath_of_ok env config localPath' containerPath nspace
    excludedPathsString serviceName workdir labelSelectorMap rest hw hsave hc⟩

theorem AddSyncPath_succeeds_for_all_localPaths (env : Env) (config config' : Config)
    (localPath localPath' containerPath nspace labelSelector excludedPathsString
      serviceName : String)
    (h : AddSyncPath env config localPath containerPath nspace labelSelector
      excludedPathsString serviceName = .returned config' none) :
    ∃ config'', AddSyncPath env config localPath' containerPath nspace labelSelector
      excludedPathsString serviceName = .returned config'' none := by
  unfold AddSyncPath at h ⊢
  simp only at h ⊢
  split at h
  · simp at h
  · rename_i hconf
    rw [if_neg hconf]
    cases hres : resolveSelector env (initSync config) labelSelector serviceName with
    | panic => simp [hres] at h
    | fail err => simp [hres] at h
    | vars selectorMap labelSelector' =>
      simp only [hres] at h ⊢
      cases selectorMap with
      | some m =>
        simp only at h ⊢
        exact storeSyncPath_succeeds_for_all_localPaths _ _ _ _ _ _ _ _ _ _ h
      | none =>
        simp only at h ⊢
        cases hp : parseSelectors labelSelector' with
        | error e => simp [hp] at h
        | ok m =>
          simp only [hp] at h ⊢
          exact storeSyncPath_succeeds_for_all_localPaths _ _ _ _ _ _ _ _ _ _ h

/-- C17: a successful `AddSyncPath` with the working directory `workdir` stores the given
local path with `workdir` removed once from its front when the local path starts with
`workdir`, and stores it unchanged otherwise; the local path has no part in whether the
call succeeds. -/
theorem AddSyncPath_localPath (env : Env) (config config' : Config)
    (localPath containerPath nspace labelSelector excludedPathsString serviceName : String)
    (h : AddSyncPath env config localPath containerPath nspace labelSelector
      excludedPathsString serviceName = .returned config' none) :
    ∃ workdir added, env.workdir = .ok workdir ∧
      config'.syncPaths = config.syncPaths ++ [added] ∧
      added.LocalSubPath = some (strings.TrimPrefix localPath workdir) ∧
      (∀ rest, localPath = workdir ++ rest → added.LocalSubPath = some rest) ∧
      ((¬ ∃ rest, localPath = workdir ++ rest) → added.LocalSubPath = some localPath) ∧
      (∀ localPath', ∃ config'', AddSyncPath env config localPath' containerPath nspace
        labelSelector excludedPathsString serviceName = .returned config'' none) := by
  obtain ⟨workdir, resolved, hw, _, _, _, hcfg⟩ :=
    AddSyncPath_returned_none _ _ _ _ _ _ _ _ _ h
  refine ⟨workdir, _, hw, by rw [hcfg, syncPaths_setSync_initSync], rfl, ?_, ?_, ?_⟩
  · intro rest hrest
    subst hrest
    simp [newSyncConfig, TrimPrefix_append]
  · intro hnot
    simp [newSyncConfig, TrimPrefix_of_not_startsWith _ _ hnot]
  · intro localPath'
    exact AddSyncPath_succeeds_for_all_localPaths _ _ _ _ _ _ _ _ _ _ h

/-- C17 at a concrete call: the working directory `/work` is stripped once from
`/work/work/src`. -/
theorem AddSyncPath_localPath_witness :
    AddSyncPath okEnv (configOf [] []) "/work/work/src" "/app" "" "app=x" "" ""
      = .returned (configOf [syncPath "/work/src" "/app" (some (labels [("app", "x")]))] [])
          none ∧
    AddSyncPath okEnv (configOf [] []) "rel/src" "/app" "" "app=x" "" ""
      = .returned (configOf [syncPath "rel/src" "/app" (some (labels [("app", "x")]))] [])
          none ∧
    ∃ workdir added, okEnv.workdir = .ok workdir ∧
      (configOf [syncPath "/work/src" "/app" (some (labels [("app", "x")]))] []).syncPaths
        = (configOf [] []).syncPaths ++ [added] ∧
      added.LocalSubPath = some (strings.TrimPrefix "/work/work/src" workdir) ∧
      (∀ rest, "/work/work/src" = workdir ++ rest → added.LocalSubPath = some rest) ∧
      ((¬ ∃ rest, "/work/work/src" = workdir ++ rest) →
        added.LocalSubPath = some "/work/work/src") ∧
      (∀ localPath', ∃ config'', AddSyncPath okEnv (configOf [] []) localPath' "/app" ""
        "app=x" "" "" = .returned config'' none) :=
  ⟨by decide, by decide,
    AddSyncPath_localPath okEnv (configOf [] [])
      (configOf [syncPath "/work/src" "/app" (some (labels [("app", "x")]))] [])
      "/work/work/src" "/app" "" "app=x" "" "" (by decide)⟩

/-- C18: a successful `AddSyncPath` with an empty selector expression, an empty service
name and a non-empty catalog appends a sync path without a service name whose stored
selector holds exactly the keys and values of the selector of the first service of the
catalog; it is that very map, except that a nil map of the service is stored as an empty
map. -/
theorem AddSyncPath_first_service (env : Env) (config config' : Config)
    (localPath containerPath nspace excludedPathsString : String)
    (first : ServiceConfig) (others : List ServiceConfig)
    (hcat : config.catalog = first :: others)
    (h : AddSyncPath env config localPath containerPath nspace "" excludedPathsString ""
      = .returned config' none) :
    ∃ added firstSelector stored, config'.syncPaths = config.syncPaths ++ [added] ∧
      added.Service = some "" ∧ first.LabelSelector = some firstSelector ∧
      added.LabelSelector = some stored ∧
      (∀ k, stored.get k = firstSelector.get k) ∧
      areLabelMapsEqual stored firstSelector = true ∧
      (firstSelector ≠ none → stored = firstSelector) ∧
      (firstSelector = none → stored = some Entries.empty) := by
  have hres : resolveFromCatalog env (initSync config) "" = adoptSelector first := by
    rw [resolveFromCatalog_eq, catalog_initSync, hcat]
    simp
  rw [AddSyncPath_empty_selector, hres] at h
  unfold adoptSelector at h
  cases hf : first.LabelSelector with
  | none => simp [hf] at h
  | some firstSelector =>
    simp only [hf] at h
    cases firstSelector with
    | none =>
      simp only [parseSelectors_empty] at h
      obtain ⟨workdir, _, _, _, hcfg⟩ := storeSyncPath_returned_none _ _ _ _ _ _ _ _ _ h
      rw [syncPaths_initSync] at hcfg
      refine ⟨_, none, some Entries.empty, by rw [hcfg, syncPaths_setSync_initSync], rfl, rfl,
        by simp [newSyncConfig], fun k => rfl, by decide, fun hne => absurd rfl hne,
        fun _ => rfl⟩
    | some entries =>
      simp only at h
      obtain ⟨workdir, _, _, _, hcfg⟩ := storeSyncPath_returned_none _ _ _ _ _ _ _ _ _ h
      rw [syncPaths_initSync] at hcfg
      refine ⟨_, some entries, some entries, by rw [hcfg, syncPaths_setSync_initSync], rfl,
        rfl, by simp [newSyncConfig], fun k => rfl, areLabelMapsEqual_self _, fun _ => rfl,
        fun hnone => by simp at hnone⟩

/-- C18 at a concrete catalog: the first service is `web` with the selector `tier=x`. -/
theorem AddSyncPath_first_service_witness :
    AddSyncPath okEnv (configOf [] webSvcCatalog) "/work/src" "/app" "" "" "" ""
      = .returned (configOf [syncPath "/src" "/app" (some (labels [("tier", "x")]))]
          webSvcCatalog) none ∧
    ∃ added firstSelector stored,
      (configOf [syncPath "/src" "/app" (some (labels [("tier", "x")]))]
          webSvcCatalog).syncPaths
        = (configOf [] webSvcCatalog).syncPaths ++ [added] ∧
      added.Service = some "" ∧
      ServiceConfig.LabelSelector { Name := "web", LabelSelector := some (labels [("tier", "x")]) }
        = some firstSelector ∧
      added.LabelSelector = some stored ∧
      (∀ k, stored.get k = firstSelector.get k) ∧
      areLabelMapsEqual stored firstSelector = true ∧
      (firstSelector ≠ none → stored = firstSelector) ∧
      (firstSelector = none → stored = some Entries.empty) :=
  ⟨by decide,
    AddSyncPath_first_service okEnv (configOf [] webSvcCatalog) _ "/work/src" "/app" "" ""
      { Name := "web", LabelSelector := some (labels [("tier", "x")]) }
      [{ Name := "svc", LabelSelector := none }] rfl (by decide)⟩

theorem splitChars_of_not_mem (sep : Char) (cs : List Char) (h : sep ∉ cs) :
    splitChars sep cs = [cs] := by
  induction cs with
  | nil => rfl
  | cons c cs ih =>
    rw [List.mem_cons, not_or] at h
    have hc : ¬ c = sep := fun e => h.1 e.symm
    rw [splitChars, if_neg hc, ih h.2]

theorem parseSelectors_release (name : String) (hcomma : ',' ∉ name.data)
    (heq : '=' ∉ name.data) :
    ∃ selector, parseSelectors ("release=" ++ name) = .ok selector := by
  have hne : "release=" ++ name ≠ "" := by
    intro he
    have := congrArg String.length he
    simp only [String.length_append, String.length_empty, Nat.add_eq_zero_iff] at this
    exact absurd this.1 (by decide)
  have hsplit : strings.Split ("release=" ++ name) ',' = ["release=" ++ name] := by
    unfold strings.Split
    rw [splitChars_of_not_mem]
    · rfl
    · rw [String.data_append, List.mem_append, not_or]
      exact ⟨by decide, hcomma⟩
  have hcount : ("release=" ++ name).data.count '=' = 1 := by
    rw [String.data_append, List.count_append, List.count_eq_zero.2 heq]
    decide
  have hall : ∀ token ∈ strings.Split ("release=" ++ name) ',', tokenPair token ≠ none := by
    intro token ht hnone
    rw [hsplit, List.mem_singleton] at ht
    subst ht
    exact (tokenPair_eq_none_iff_count _).1 hnone hcount
  obtain ⟨r, hr⟩ := parseLoop_total ("release=" ++ name) _ Entries.empty hall
  exact ⟨some r, by rw [parseSelectors_of_ne _ hne, hr]⟩

/-- C20, refuted as stated: with a service name, no selector expression, an empty
catalog, the container path `/app` and the release name `app`, `AddSyncPath` does not
succeed when the working directory cannot be determined or when the save fails. -/
theorem AddSyncPath_empty_catalog_counterexample :
    AddSyncPath noWorkdirEnv (configOf [] []) "src" "/app" "" "" "" "ghost"
      = .returned (configOf [] [])
          (some (.environmentError "getwd: no such file or directory")) ∧
    AddSyncPath failingSaveEnv (configOf [] []) "src" "/app" "" "" "" "ghost"
      = .returned (configOf [newSyncConfig "src" "/app" "" "ghost" [] none] [])
          (some (.ioError "disk full")) := by
  decide

/-- C20, amended: with a non-empty service name, an empty selector expression, an empty
catalog, a container path that begins with `/` and a release name without `,` and `=`,
`AddSyncPath` does not return the service-not-found error, whatever the collaborators
return, and the default selector `release=` followed by the release name parses; when the
working directory is available and the save succeeds, the call succeeds and appends a
sync path that names the service and stores the nil selector map, the parsed default
selector being dropped. -/
theorem AddSyncPath_empty_catalog (env : Env) (config : Config)
    (localPath containerPath nspace excludedPathsString serviceName : String)
    (rest : List Char)
    (hs : serviceName ≠ "") (hcat : config.catalog = [])
    (hc : containerPath.data = '/' :: rest)
    (hcomma : ',' ∉ env.firstHelmDeployment.data)
    (heq : '=' ∉ env.firstHelmDeployment.data) :
    (∀ name, (AddSyncPath env config localPath containerPath nspace "" excludedPathsString
        serviceName).err? ≠ some (.serviceNotFound name)) ∧
    (∃ selector, parseSelectors ("release=" ++ env.firstHelmDeployment) = .ok selector) ∧
    (∀ workdir, env.workdir = .ok workdir → env.saveErr = none →
      AddSyncPath env config localPath containerPath nspace "" excludedPathsString serviceName
          = .returned (setSync (initSync config) (config.syncPaths ++
              [newSyncConfig (strings.TrimPrefix localPath workdir) containerPath nspace
                serviceName (parseExcludedPaths excludedPathsString) none])) none ∧
        (newSyncConfig (strings.TrimPrefix localPath workdir) containerPath nspace
          serviceName (parseExcludedPaths excludedPathsString) none).Service
            = some serviceName ∧
        (newSyncConfig (strings.TrimPrefix localPath workdir) containerPath nspace
          serviceName (parseExcludedPaths excludedPathsString) none).hasEmptySelector
            = true) := by
  have hres : resolveFromCatalog env (initSync config) serviceName
      = .vars none ("release=" ++ env.firstHelmDeployment) := by
    rw [resolveFromCatalog_eq, catalog_initSync, hcat]
  obtain ⟨selector, hp⟩ := parseSelectors_release env.firstHelmDeployment hcomma heq
  have hadd : AddSyncPath env config localPath containerPath nspace "" excludedPathsString
      serviceName
        = storeSyncPath env (initSync config) localPath containerPath nspace
            excludedPathsString serviceName selector := by
    rw [AddSyncPath_empty_selector, hres]
    simp only [hp]
  refine ⟨?_, ⟨selector, hp⟩, ?_⟩
  · intro name
    rw [hadd]
    exact storeSyncPath_err_ne_serviceNotFound _ _ _ _ _ _ _ _ _
  · intro workdir hw hsave
    refine ⟨?_, rfl, rfl⟩
    rw [hadd, storeSyncPath_of_ok env _ localPath containerPath nspace excludedPathsString
      serviceName workdir selector rest hw hsave hc, syncPaths_initSync]
    simp [hs]

/-- C20, the amended claim at concrete calls for the service `ghost`, which is in no
catalog: the call succeeds with working collaborators, and without a working directory it
returns the environment error, not the service-not-found error. -/
theorem AddSyncPath_empty_catalog_witness :
    AddSyncPath okEnv (configOf [] []) "/work/src" "/app" "" "" "" "ghost"
      = .returned (configOf [newSyncConfig "/src" "/app" "" "ghost" [] none] []) none ∧
    AddSyncPath okEnv (configOf [] []) "/work/src" "/app" "" "" "" "ghost"
      = .returned (setSync (initSync (configOf [] [])) ((configOf [] []).syncPaths ++
          [newSyncConfig (strings.TrimPrefix "/work/src" "/work") "/app" "" "ghost"
            (parseExcludedPaths "") none])) none ∧
    (AddSyncPath noWorkdirEnv (configOf [] []) "/work/src" "/app" "" "" "" "ghost").err?
      = some (.environmentError "getwd: no such file or directory") ∧
    ∀ name,
      (AddSyncPath noWorkdirEnv (configOf [] []) "/work/src" "/app" "" "" "" "ghost").err?
        ≠ some (.serviceNotFound name) :=
  ⟨by decide,
    ((AddSyncPath_empty_catalog okEnv (configOf [] []) "/work/src" "/app" "" "" "ghost"
      ['a', 'p', 'p'] (by decide) rfl rfl (by decide) (by decide)).2.2 "/work" rfl rfl).1,
    by decide,
    (AddSyncPath_empty_catalog noWorkdirEnv (configOf [] []) "/work/src" "/app" "" "" "ghost"
      ['a', 'p', 'p'] (by decide) rfl rfl (by decide) (by decide)).1⟩

/-! ## Sequences of calls keep the data model's invariants -/

theorem wellFormed_newSyncConfig (localPath containerPath nspace serviceName : String)
    (excludedPaths : List String) (labelSelectorMap : LabelMap) (rest : List Char)
    (hc : containerPath.data = '/' :: rest) :
    (newSyncConfig localPath containerPath nspace serviceName excludedPaths
      (if serviceName ≠ "" then none else labelSelectorMap)).wellFormed = true := by
  by_cases hs : serviceName = ""
  · simp [newSyncConfig, SyncConfig.wellFormed, SyncConfig.hasService, hc, hs]
  · simp [newSyncConfig, SyncConfig.wellFormed, SyncConfig.hasSelector, hc, hs, LabelMap.len]

theorem run_preserves_wellFormed (env : Env) (config config' : Config) (call : Call)
    (h : call.run env config = .returned config' none)
    (hinv : ∀ v ∈ config.syncPaths, v.wellFormed = true) :
    ∀ v ∈ config'.syncPaths, v.wellFormed = true := by
  cases call with
  | add localPath containerPath nspace labelSelector excludedPathsString serviceName =>
    obtain ⟨workdir, resolved, _, _, ⟨rest, hc⟩, _, hcfg⟩ :=
      AddSyncPath_returned_none _ _ _ _ _ _ _ _ _ h
    intro v hv
    rw [hcfg, syncPaths_setSync_initSync, List.mem_append, List.mem_singleton] at hv
    rcases hv with hv | hv
    · exact hinv v hv
    · rw [hv]
      exact wellFormed_newSyncConfig _ _ _ _ _ _ rest hc
  | remove removeAll localPath containerPath labelSelector =>
    obtain ⟨query, _, _, hpaths, _⟩ := RemoveSyncPath_returned_none _ _ _ _ _ _ _ h
    intro v hv
    rw [hpaths] at hv
    exact hinv v (List.mem_of_mem_filter hv)

theorem runCalls_preserves_wellFormed (calls : List (Env × Call)) (config config' : Config)
    (h : runCalls config calls = some config')
    (hinv : ∀ v ∈ config.syncPaths, v.wellFormed = true) :
    ∀ v ∈ config'.syncPaths, v.wellFormed = true := by
  induction calls generalizing config with
  | nil =>
    simp only [runCalls, Option.some.injEq] at h
    subst h
    exact hinv
  | cons step rest ih =>
    obtain ⟨env, call⟩ := step
    unfold runCalls at h
    cases ho : call.run env config with
    | panic => simp [ho] at h
    | returned next err =>
      cases err with
      | some e => simp [ho] at h
      | none =>
        simp only [ho] at h
        exact ih next h (run_preserves_wellFormed env config next call ho hinv)

/-- C16: starting from a configuration without sync paths, after any sequence of
successful calls of `AddSyncPath` and `RemoveSyncPath`, whatever the collaborators return
in each, every sync path has a container path that begins with `/` and does not both name
a service and store a non-empty selector. -/
theorem reachable_wellFormed (calls : List (Env × Call)) (config config' : Config)
    (h0 : config.syncPaths = []) (h : runCalls config calls = some config') :
    ∀ v ∈ config'.syncPaths,
      v.wellFormed = true ∧
      (∃ containerPath first rest,
        v.ContainerPath = some containerPath ∧ containerPath.data = first :: rest ∧
          first = '/') ∧
      ¬ (v.hasService = true ∧ v.hasSelector = true) := by
  intro v hv
  have hwf := runCalls_preserves_wellFormed calls config config' h
    (by rw [h0]; exact fun w hw => absurd hw (List.not_mem_nil w)) v hv
  refine ⟨hwf, ?_, ?_⟩
  · unfold SyncConfig.wellFormed at hwf
    cases hc : v.ContainerPath with
    | none => simp [hc] at hwf
    | some containerPath =>
      cases hd : containerPath.data with
      | nil => simp [hc, hd] at hwf
      | cons first rest =>
        simp only [hc, hd, List.head?_cons, Bool.and_eq_true, beq_iff_eq, Option.some.injEq]
          at hwf
        exact ⟨containerPath, first, rest, rfl, hd, hwf.1⟩
  · unfold SyncConfig.wellFormed at hwf
    intro hboth
    simp [hboth.1, hboth.2] at hwf

/-- C16 on a concrete run: a service-scoped sync path and one with a selector are added,
and the first is removed again by its container path. -/
theorem reachable_wellFormed_witness :
    runCalls (configOf [] svcCatalog)
        [(okEnv, Call.add "/work/a" "/x" "" "" "" "svc"),
          (okEnv, Call.add "/work/b" "/y" "" "app=x" "" ""),
          (okEnv, Call.remove false "/nowhere" "/x" "tier=db")]
      = some (configOf [syncPath "/b" "/y" (some (labels [("app", "x")]))] svcCatalog) ∧
    ∀ v ∈ (configOf [syncPath "/b" "/y" (some (labels [("app", "x")]))] svcCatalog).syncPaths,
      v.wellFormed = true ∧
      (∃ containerPath first rest,
        v.ContainerPath = some containerPath ∧ containerPath.data = first :: rest ∧
          first = '/') ∧
      ¬ (v.hasService = true ∧ v.hasSelector = true) :=
  ⟨by decide,
    reachable_wellFormed
      [(okEnv, Call.add "/work/a" "/x" "" "" "" "svc"),
        (okEnv, Call.add "/work/b" "/y" "" "app=x" "" ""),
        (okEnv, Call.remove false "/nowhere" "/x" "tier=db")]
      (configOf [] svcCatalog) _ rfl (by decide)⟩

/-- C19: when `RemoveSyncPath` succeeds with an empty selector expression, no sync path is
left whose stored selector is a nil pointer, a nil map or a map without entries, whatever
its paths are; so a sync path that a successful `AddSyncPath` with a service name has
just appended is gone after any successful removal by paths alone. -/
theorem RemoveSyncPath_empty_selector (env : Env) (config config' : Config) (removeAll : Bool)
    (localPath containerPath : String)
    (h : RemoveSyncPath env config removeAll localPath containerPath ""
      = .returned config' none) :
    (∀ v ∈ config'.syncPaths, v.selectorEmptyOrAbsent = false) ∧
    (∀ v ∈ config.syncPaths, v.selectorEmptyOrAbsent = true → v ∉ config'.syncPaths) ∧
    (∀ (envAdd : Env) (before : Config)
        (addLocalPath addContainerPath nspace labelSelector excludedPathsString
          serviceName : String),
      serviceName ≠ "" →
      AddSyncPath envAdd before addLocalPath addContainerPath nspace labelSelector
        excludedPathsString serviceName = .returned config none →
      ∃ added, config.syncPaths = before.syncPaths ++ [added] ∧
        added.Service = some serviceName ∧ added.selectorEmptyOrAbsent = true ∧
        added ∉ config'.syncPaths) := by
  obtain ⟨query, hp, _, _, hsurv⟩ := RemoveSyncPath_returned_none _ _ _ _ _ _ _ h
  rw [parseSelectors_empty] at hp
  simp only [Except.ok.injEq] at hp
  subst hp
  have hleft : ∀ v ∈ config'.syncPaths, v.selectorEmptyOrAbsent = false := by
    intro v hv
    obtain ⟨stored, hst, hne⟩ := selector_of_matchesQuery_false _ _ _ _ _ (hsurv v hv)
    rw [areLabelMapsEqual_empty_left] at hne
    simp [SyncConfig.selectorEmptyOrAbsent, hst, hne]
  refine ⟨hleft, ?_, ?_⟩
  · intro v _ hempty hmem
    rw [hleft v hmem] at hempty
    simp at hempty
  · intro envAdd before addLocalPath addContainerPath nspace labelSelector
      excludedPathsString serviceName hs hadd
    obtain ⟨workdir, resolved, _, _, _, _, hcfg⟩ :=
      AddSyncPath_returned_none _ _ _ _ _ _ _ _ _ hadd
    have hempty : (newSyncConfig (strings.TrimPrefix addLocalPath workdir) addContainerPath
        nspace serviceName (parseExcludedPaths excludedPathsString)
        (if serviceName ≠ "" then none else resolved)).selectorEmptyOrAbsent = true := by
      simp [newSyncConfig, SyncConfig.selectorEmptyOrAbsent, hs, LabelMap.len]
    refine ⟨_, by rw [hcfg, syncPaths_setSync_initSync], rfl, hempty, ?_⟩
    intro hmem
    rw [hleft _ hmem] at hempty
    simp at hempty

/-- C19 at a concrete removal by a local path that no sync path has: the sync path of the
service `svc`, which stores the nil map, goes, the one with the selector `app=x` stays. -/
theorem RemoveSyncPath_empty_selector_witness :
    RemoveSyncPath okEnv
        (configOf [newSyncConfig "/a" "/x" "" "svc" [] none,
          syncPath "/b" "/y" (some (labels [("app", "x")]))] svcCatalog)
        false "/nowhere" "" ""
      = .returned (configOf [syncPath "/b" "/y" (some (labels [("app", "x")]))] svcCatalog)
          none ∧
    ∀ v ∈ (configOf [syncPath "/b" "/y" (some (labels [("app", "x")]))] svcCatalog).syncPaths,
      v.selectorEmptyOrAbsent = false :=
  ⟨by decide,
    (RemoveSyncPath_empty_selector okEnv
      (configOf [newSyncConfig "/a" "/x" "" "svc" [] none,
        syncPath "/b" "/y" (some (labels [("app", "x")]))] svcCatalog)
      _ false "/nowhere" "" (by decide)).1⟩

end Devspace
